import Mathlib

/-!
# T00ls sign-in tool: `util/account.go`

A shallow embedding of `src/util/account.go` and of the parts of the Go
standard library it calls (`encoding/base64`, `encoding/json`, `unicode/utf8`,
`net/url`, `net/http`), followed by theorems about the embedding.

Conventions of the embedding.

* A Go `[]byte` is a `List Nat` (one number below 256 a byte).  A Go `string`
  is a Lean `String`: every string of the program is a literal or comes out of
  `json.Unmarshal`, which always yields well-formed UTF-8.
* A Go `error` is `Option String`: `none` is `nil`, `some m` an error whose
  `Error()` text is `m`.
* The outside world is explicit: `Env` holds what `url.Parse`, `os.ReadFile`
  and `client.Do` answer; `World` is the state threaded through the program
  (state of the remote side, log lines written, requests handed to the client).
* A Go function that may panic or block forever returns a `Result`.
* The three loggers are the ones `LogKeep` installs; a log line is kept as the
  logger it went to and the formatted message (the timestamp is left out).
-/

set_option maxRecDepth 100000

namespace T00ls

/-! ## Bytes and UTF-8 (`unicode/utf8`) -/

/-- Bytes of a Go byte slice. -/
abbrev Bytes := List Nat

/-- Go `utf8.AppendRune` for a valid rune: the UTF-8 encoding of code point `r`. -/
def utf8EncodeRune (r : Nat) : Bytes :=
  if r < 0x80 then [r]
  else if r < 0x800 then [0xC0 + r / 64, 0x80 + r % 64]
  else if r < 0x10000 then [0xE0 + r / 4096, 0x80 + r / 64 % 64, 0x80 + r % 64]
  else [0xF0 + r / 262144, 0x80 + r / 4096 % 64, 0x80 + r / 64 % 64, 0x80 + r % 64]

/-- Go conversion `[]byte(s)` of a string `s`. -/
def stringBytes (s : String) : Bytes :=
  (s.data.map (fun c => utf8EncodeRune c.toNat)).foldr (fun x acc => x ++ acc) []

/-- Go `utf8.RuneError`, the replacement character U+FFFD. -/
def RuneError : Nat := 0xFFFD

/-- Go `utf8.DecodeRune`: the rune encoded at the head of `p` and its width in
bytes; `(RuneError, 1)` when the encoding is invalid or cut short (overlong
forms, surrogates and values above U+10FFFF are invalid), `(RuneError, 0)` on
empty input. -/
def decodeRune (p : Bytes) : Nat × Nat :=
  match p with
  | [] => (RuneError, 0)
  | b0 :: rest =>
    if b0 < 0x80 then (b0, 1)
    else if 0xC2 ≤ b0 ∧ b0 ≤ 0xDF then
      match rest with
      | b1 :: _ =>
        if 0x80 ≤ b1 ∧ b1 ≤ 0xBF then ((b0 % 32) * 64 + b1 % 64, 2) else (RuneError, 1)
      | _ => (RuneError, 1)
    else if 0xE0 ≤ b0 ∧ b0 ≤ 0xEF then
      let lo := if b0 = 0xE0 then 0xA0 else 0x80
      let hi := if b0 = 0xED then 0x9F else 0xBF
      match rest with
      | b1 :: b2 :: _ =>
        if lo ≤ b1 ∧ b1 ≤ hi ∧ 0x80 ≤ b2 ∧ b2 ≤ 0xBF then
          ((b0 % 16) * 4096 + (b1 % 64) * 64 + b2 % 64, 3)
        else (RuneError, 1)
      | _ => (RuneError, 1)
    else if 0xF0 ≤ b0 ∧ b0 ≤ 0xF4 then
      let lo := if b0 = 0xF0 then 0x90 else 0x80
      let hi := if b0 = 0xF4 then 0x8F else 0xBF
      match rest with
      | b1 :: b2 :: b3 :: _ =>
        if lo ≤ b1 ∧ b1 ≤ hi ∧ 0x80 ≤ b2 ∧ b2 ≤ 0xBF ∧ 0x80 ≤ b3 ∧ b3 ≤ 0xBF then
          ((b0 % 8) * 262144 + (b1 % 64) * 4096 + (b2 % 64) * 64 + b3 % 64, 4)
        else (RuneError, 1)
      | _ => (RuneError, 1)
    else (RuneError, 1)

/-! ## `encoding/json`: the scanner (`scanner.go`) -/

/-- The state functions of the JSON scanner (`scanner.step`). -/
inductive ScanStep
  | beginValueOrEmpty | beginValue | beginStringOrEmpty | beginString
  | endValue | endTop
  | inString | inStringEsc | inStringEscU | inStringEscU1 | inStringEscU12 | inStringEscU123
  | neg | one | zero | dot | dot0 | e | eSign | e0
  | t | tr | tru | f | fa | fal | fals | n | nu | nul
  | error
  deriving DecidableEq, Repr

/-- The entries of the scanner's stack `parseState`. -/
inductive ParseState
  | objectKey | objectValue | arrayValue
  deriving DecidableEq, Repr

/-- The opcodes a state function returns. -/
inductive ScanOp
  | scanContinue | scanBeginLiteral | scanBeginObject | scanObjectKey | scanObjectValue
  | scanEndObject | scanBeginArray | scanArrayValue | scanEndArray | scanSkipSpace
  | scanEnd | scanError
  deriving DecidableEq, Repr

/-- The JSON scanner: current state function, stack of open composites (the
innermost first), whether an error was recorded, whether the top-level value
has ended. -/
structure Scanner where
  step : ScanStep
  parseState : List ParseState
  err : Bool
  endTop : Bool
  deriving DecidableEq, Repr

/-- Go `maxNestingDepth`. -/
def maxNestingDepth : Nat := 10000

/-- Go `isSpace`. -/
def isSpace (c : Nat) : Bool := c ≤ 32 && (c = 32 || c = 9 || c = 13 || c = 10)

/-- Go `scanner.reset`. -/
def Scanner.reset : Scanner := ⟨.beginValue, [], false, false⟩

/-- Go `scanner.error`: record the error and go to `stateError`. -/
def Scanner.fail (s : Scanner) : Scanner × ScanOp :=
  ({ s with step := .error, err := true }, .scanError)

/-- Go `scanner.pushParseState`, run after `s.step` was set to `next`. -/
def Scanner.pushParseState (s : Scanner) (next : ScanStep) (p : ParseState) (ok : ScanOp) :
    Scanner × ScanOp :=
  let s1 : Scanner := { s with step := next, parseState := p :: s.parseState }
  if s1.parseState.length ≤ maxNestingDepth then (s1, ok) else s1.fail

/-- Go `scanner.popParseState`. -/
def Scanner.popParseState (s : Scanner) : Scanner :=
  let rest := s.parseState.tail
  if rest.length = 0 then { s with parseState := rest, step := .endTop, endTop := true }
  else { s with parseState := rest, step := .endValue }

/-- Go `stateEndTop`: only space may follow the top-level value; the error is
recorded here and reported by the next call. -/
def stateEndTop (s : Scanner) (c : Nat) : Scanner × ScanOp :=
  if !isSpace c then ((s.fail).1, .scanEnd) else (s, .scanEnd)

/-- Go `stateEndValue`. -/
def stateEndValue (s : Scanner) (c : Nat) : Scanner × ScanOp :=
  match s.parseState with
  | [] => stateEndTop { s with step := .endTop, endTop := true } c
  | ps :: rest =>
    if isSpace c then ({ s with step := .endValue }, .scanSkipSpace)
    else match ps with
      | .objectKey =>
        if c = 58 then
          ({ s with parseState := .objectValue :: rest, step := .beginValue }, .scanObjectKey)
        else s.fail
      | .objectValue =>
        if c = 44 then
          ({ s with parseState := .objectKey :: rest, step := .beginString }, .scanObjectValue)
        else if c = 125 then (s.popParseState, .scanEndObject)
        else s.fail
      | .arrayValue =>
        if c = 44 then ({ s with step := .beginValue }, .scanArrayValue)
        else if c = 93 then (s.popParseState, .scanEndArray)
        else s.fail

/-- Go `stateBeginValue`. -/
def stateBeginValue (s : Scanner) (c : Nat) : Scanner × ScanOp :=
  if isSpace c then (s, .scanSkipSpace)
  else if c = 123 then s.pushParseState .beginStringOrEmpty .objectKey .scanBeginObject
  else if c = 91 then s.pushParseState .beginValueOrEmpty .arrayValue .scanBeginArray
  else if c = 34 then ({ s with step := .inString }, .scanBeginLiteral)
  else if c = 45 then ({ s with step := .neg }, .scanBeginLiteral)
  else if c = 48 then ({ s with step := .zero }, .scanBeginLiteral)
  else if c = 116 then ({ s with step := .t }, .scanBeginLiteral)
  else if c = 102 then ({ s with step := .f }, .scanBeginLiteral)
  else if c = 110 then ({ s with step := .n }, .scanBeginLiteral)
  else if 49 ≤ c ∧ c ≤ 57 then ({ s with step := .one }, .scanBeginLiteral)
  else s.fail

/-- Go `stateBeginValueOrEmpty`. -/
def stateBeginValueOrEmpty (s : Scanner) (c : Nat) : Scanner × ScanOp :=
  if isSpace c then (s, .scanSkipSpace)
  else if c = 93 then stateEndValue s c
  else stateBeginValue s c

/-- Go `stateBeginString`. -/
def stateBeginString (s : Scanner) (c : Nat) : Scanner × ScanOp :=
  if isSpace c then (s, .scanSkipSpace)
  else if c = 34 then ({ s with step := .inString }, .scanBeginLiteral)
  else s.fail

/-- Go `stateBeginStringOrEmpty`. -/
def stateBeginStringOrEmpty (s : Scanner) (c : Nat) : Scanner × ScanOp :=
  if isSpace c then (s, .scanSkipSpace)
  else if c = 125 then
    stateEndValue { s with parseState := .objectValue :: s.parseState.tail } c
  else stateBeginString s c

/-- Go `stateInString`. -/
def stateInString (s : Scanner) (c : Nat) : Scanner × ScanOp :=
  if c = 34 then ({ s with step := .endValue }, .scanContinue)
  else if c = 92 then ({ s with step := .inStringEsc }, .scanContinue)
  else if c < 32 then s.fail
  else (s, .scanContinue)

/-- Go `stateInStringEsc`. -/
def stateInStringEsc (s : Scanner) (c : Nat) : Scanner × ScanOp :=
  if c = 98 ∨ c = 102 ∨ c = 110 ∨ c = 114 ∨ c = 116 ∨ c = 92 ∨ c = 47 ∨ c = 34 then
    ({ s with step := .inString }, .scanContinue)
  else if c = 117 then ({ s with step := .inStringEscU }, .scanContinue)
  else s.fail

/-- The test of `stateInStringEscU` and its three successors: a hexadecimal digit. -/
def isHexDigit (c : Nat) : Bool :=
  (48 ≤ c && c ≤ 57) || (97 ≤ c && c ≤ 102) || (65 ≤ c && c ≤ 70)

/-- Go `stateInStringEscU`, `stateInStringEscU1`, `stateInStringEscU12`,
`stateInStringEscU123`: one hexadecimal digit, then on to `next`. -/
def stateInStringEscHex (next : ScanStep) (s : Scanner) (c : Nat) : Scanner × ScanOp :=
  if isHexDigit c then ({ s with step := next }, .scanContinue) else s.fail

/-- Go `state0`. -/
def state0 (s : Scanner) (c : Nat) : Scanner × ScanOp :=
  if c = 46 then ({ s with step := .dot }, .scanContinue)
  else if c = 101 ∨ c = 69 then ({ s with step := .e }, .scanContinue)
  else stateEndValue s c

/-- Go `state1`. -/
def state1 (s : Scanner) (c : Nat) : Scanner × ScanOp :=
  if 48 ≤ c ∧ c ≤ 57 then ({ s with step := .one }, .scanContinue)
  else state0 s c

/-- Go `stateNeg`. -/
def stateNeg (s : Scanner) (c : Nat) : Scanner × ScanOp :=
  if c = 48 then ({ s with step := .zero }, .scanContinue)
  else if 49 ≤ c ∧ c ≤ 57 then ({ s with step := .one }, .scanContinue)
  else s.fail

/-- Go `stateDot`. -/
def stateDot (s : Scanner) (c : Nat) : Scanner × ScanOp :=
  if 48 ≤ c ∧ c ≤ 57 then ({ s with step := .dot0 }, .scanContinue) else s.fail

/-- Go `stateDot0`. -/
def stateDot0 (s : Scanner) (c : Nat) : Scanner × ScanOp :=
  if 48 ≤ c ∧ c ≤ 57 then (s, .scanContinue)
  else if c = 101 ∨ c = 69 then ({ s with step := .e }, .scanContinue)
  else stateEndValue s c

/-- Go `stateESign`. -/
def stateESign (s : Scanner) (c : Nat) : Scanner × ScanOp :=
  if 48 ≤ c ∧ c ≤ 57 then ({ s with step := .e0 }, .scanContinue) else s.fail

/-- Go `stateE`. -/
def stateE (s : Scanner) (c : Nat) : Scanner × ScanOp :=
  if c = 43 ∨ c = 45 then ({ s with step := .eSign }, .scanContinue)
  else stateESign s c

/-- Go `stateE0`. -/
def stateE0 (s : Scanner) (c : Nat) : Scanner × ScanOp :=
  if 48 ≤ c ∧ c ≤ 57 then (s, .scanContinue) else stateEndValue s c

/-- Go `stateT`, `stateTr`, `stateF`, ... : the next letter of a literal name
must be `want`, then on to `next`. -/
def stateLetter (want : Nat) (next : ScanStep) (s : Scanner) (c : Nat) : Scanner × ScanOp :=
  if c = want then ({ s with step := next }, .scanContinue) else s.fail

/-- The call `s.step(s, c)`: run the current state function on byte `c`. -/
def Scanner.run (s : Scanner) (c : Nat) : Scanner × ScanOp :=
  match s.step with
  | .beginValueOrEmpty => stateBeginValueOrEmpty s c
  | .beginValue => stateBeginValue s c
  | .beginStringOrEmpty => stateBeginStringOrEmpty s c
  | .beginString => stateBeginString s c
  | .endValue => stateEndValue s c
  | .endTop => stateEndTop s c
  | .inString => stateInString s c
  | .inStringEsc => stateInStringEsc s c
  | .inStringEscU => stateInStringEscHex .inStringEscU1 s c
  | .inStringEscU1 => stateInStringEscHex .inStringEscU12 s c
  | .inStringEscU12 => stateInStringEscHex .inStringEscU123 s c
  | .inStringEscU123 => stateInStringEscHex .inString s c
  | .neg => stateNeg s c
  | .one => state1 s c
  | .zero => state0 s c
  | .dot => stateDot s c
  | .dot0 => stateDot0 s c
  | .e => stateE s c
  | .eSign => stateESign s c
  | .e0 => stateE0 s c
  | .t => stateLetter 114 .tr s c
  | .tr => stateLetter 117 .tru s c
  | .tru => stateLetter 101 .endValue s c
  | .f => stateLetter 97 .fa s c
  | .fa => stateLetter 108 .fal s c
  | .fal => stateLetter 115 .fals s c
  | .fals => stateLetter 101 .endValue s c
  | .n => stateLetter 117 .nu s c
  | .nu => stateLetter 108 .nul s c
  | .nul => stateLetter 108 .endValue s c
  | .error => (s, .scanError)

/-- Go `scanner.eof`: `true` when the input seen so far is one complete JSON
value (the opcode is `scanEnd`), `false` for `scanError`. -/
def Scanner.eof (s : Scanner) : Bool :=
  if s.err then false
  else if s.endTop then true
  else (s.run 32).1.endTop

/-- The loop of Go `checkValid` from scanner state `s` on. -/
def checkValidFrom (s : Scanner) : Bytes → Bool
  | [] => s.eof
  | c :: cs =>
    let r := s.run c
    if r.2 = ScanOp.scanError then false else checkValidFrom r.1 cs

/-- Go `checkValid`: `true` when `data` is a syntactically valid JSON text
(the returned error is `nil`). -/
def checkValid (data : Bytes) : Bool := checkValidFrom Scanner.reset data

/-! ## `encoding/json`: decoding (`decode.go`)

After `checkValid` accepted the text, Go walks it a second time and stores what
it finds.  The walk is embedded as a parser to a syntax tree (`parseValue`)
followed by the store into the Go variable (`storeString`, the `store`
function of each struct type).  All loops run on fuel bounded by the length of
the input, of which every turn consumes at least one byte. -/

/-- A JSON value as the decoder sees it. -/
inductive JValue
  | null
  | bool (b : Bool)
  | number (lit : Bytes)
  | string (s : String)
  | array (xs : List JValue)
  | object (kvs : List (String × JValue))

/-- The value of one hexadecimal digit, as in Go `getu4`. -/
def hexVal (c : Nat) : Option Nat :=
  if 48 ≤ c ∧ c ≤ 57 then some (c - 48)
  else if 97 ≤ c ∧ c ≤ 102 then some (c - 97 + 10)
  else if 65 ≤ c ∧ c ≤ 70 then some (c - 65 + 10)
  else none

/-- Go `getu4`: the value of a leading `\uXXXX`, `none` (Go: -1) when the input
does not begin with such an escape. -/
def getu4 (s : Bytes) : Option Nat :=
  match s with
  | 92 :: 117 :: a :: b :: c :: d :: _ =>
    match hexVal a, hexVal b, hexVal c, hexVal d with
    | some x, some y, some z, some w => some (((x * 16 + y) * 16 + z) * 16 + w)
    | _, _, _, _ => none
  | _ => none

/-- Go `unquoteBytes` on the body of a string literal: `s` starts right after
the opening quote; the result is the text of the literal and the input left
after the closing quote.  Escapes are resolved, a surrogate pair written as two
`\u` escapes is joined, and malformed UTF-8 or a lone surrogate becomes U+FFFD. -/
def unquoteFrom : Nat → Bytes → Option (List Char × Bytes)
  | 0, _ => none
  | fuel + 1, s =>
    match s with
    | [] => none
    | c :: rest =>
      if c = 34 then some ([], rest)
      else if c = 92 then
        match rest with
        | [] => none
        | e :: rest2 =>
          if e = 34 ∨ e = 92 ∨ e = 47 ∨ e = 39 then
            (unquoteFrom fuel rest2).map (fun p => (Char.ofNat e :: p.1, p.2))
          else if e = 98 then (unquoteFrom fuel rest2).map (fun p => (Char.ofNat 8 :: p.1, p.2))
          else if e = 102 then (unquoteFrom fuel rest2).map (fun p => (Char.ofNat 12 :: p.1, p.2))
          else if e = 110 then (unquoteFrom fuel rest2).map (fun p => (Char.ofNat 10 :: p.1, p.2))
          else if e = 114 then (unquoteFrom fuel rest2).map (fun p => (Char.ofNat 13 :: p.1, p.2))
          else if e = 116 then (unquoteFrom fuel rest2).map (fun p => (Char.ofNat 9 :: p.1, p.2))
          else if e = 117 then
            match getu4 s with
            | none => none
            | some rr =>
              let after := s.drop 6
              if 0xD800 ≤ rr ∧ rr < 0xE000 then
                match getu4 after with
                | some rr1 =>
                  if rr < 0xDC00 ∧ 0xDC00 ≤ rr1 ∧ rr1 < 0xE000 then
                    (unquoteFrom fuel (after.drop 6)).map (fun p =>
                      (Char.ofNat ((rr - 0xD800) * 1024 + (rr1 - 0xDC00) + 0x10000) :: p.1, p.2))
                  else (unquoteFrom fuel after).map (fun p => (Char.ofNat RuneError :: p.1, p.2))
                | none => (unquoteFrom fuel after).map (fun p => (Char.ofNat RuneError :: p.1, p.2))
              else (unquoteFrom fuel after).map (fun p => (Char.ofNat rr :: p.1, p.2))
          else none
      else if c < 32 then none
      else if c < 0x80 then (unquoteFrom fuel rest).map (fun p => (Char.ofNat c :: p.1, p.2))
      else
        let r := decodeRune s
        (unquoteFrom fuel (s.drop r.2)).map (fun p => (Char.ofNat r.1 :: p.1, p.2))

/-- A string literal whose opening quote was just read. -/
def parseString (s : Bytes) : Option (String × Bytes) :=
  (unquoteFrom (s.length + 1) s).map (fun p => (String.mk p.1, p.2))

/-- Skip JSON white space (the decoder's `scanWhile(scanSkipSpace)`). -/
def skipSpace : Bytes → Bytes
  | [] => []
  | c :: cs => if isSpace c then skipSpace cs else c :: cs

/-- The bytes Go `rescanLiteral` takes for a number. -/
def isNumberByte (c : Nat) : Bool :=
  (48 ≤ c && c ≤ 57) || c = 46 || c = 101 || c = 69 || c = 43 || c = 45

/-- The longest leading run of number bytes and what follows it. -/
def spanNumber : Bytes → Bytes × Bytes
  | [] => ([], [])
  | c :: cs =>
    if isNumberByte c then ((c :: (spanNumber cs).1), (spanNumber cs).2) else ([], c :: cs)

/-- The elements of a non-empty array up to the closing bracket; `pv` reads one
value. -/
def parseElems (pv : Bytes → Option (JValue × Bytes)) :
    Nat → Bytes → Option (List JValue × Bytes)
  | 0, _ => none
  | fuel + 1, s =>
    match pv s with
    | none => none
    | some (v, r) =>
      match skipSpace r with
      | [] => none
      | c :: r1 =>
        if c = 44 then (parseElems pv fuel r1).map (fun p => (v :: p.1, p.2))
        else if c = 93 then some ([v], r1)
        else none

/-- The members of a non-empty object up to the closing brace; `pv` reads one
value. -/
def parseMembers (pv : Bytes → Option (JValue × Bytes)) :
    Nat → Bytes → Option (List (String × JValue) × Bytes)
  | 0, _ => none
  | fuel + 1, s =>
    match skipSpace s with
    | [] => none
    | q :: r0 =>
      if q = 34 then
        match parseString r0 with
        | none => none
        | some (key, r1) =>
          match skipSpace r1 with
          | [] => none
          | colon :: r2 =>
            if colon = 58 then
              match pv r2 with
              | none => none
              | some (v, r3) =>
                match skipSpace r3 with
                | [] => none
                | c :: r4 =>
                  if c = 44 then (parseMembers pv fuel r4).map (fun p => ((key, v) :: p.1, p.2))
                  else if c = 125 then some ([(key, v)], r4)
                  else none
            else none
      else none

/-- The decoder's `value`: one JSON value at the head of `s` (after optional
white space) and the input left after it. -/
def parseValue : Nat → Bytes → Option (JValue × Bytes)
  | 0, _ => none
  | fuel + 1, s =>
    match skipSpace s with
    | [] => none
    | c :: rest =>
      if c = 123 then
        match skipSpace rest with
        | [] => none
        | d :: r1 =>
          if d = 125 then some (.object [], r1)
          else (parseMembers (parseValue fuel) fuel rest).map (fun p => (.object p.1, p.2))
      else if c = 91 then
        match skipSpace rest with
        | [] => none
        | d :: r1 =>
          if d = 93 then some (.array [], r1)
          else (parseElems (parseValue fuel) fuel rest).map (fun p => (.array p.1, p.2))
      else if c = 34 then (parseString rest).map (fun p => (.string p.1, p.2))
      else if c = 116 then some (.bool true, rest.drop 3)
      else if c = 102 then some (.bool false, rest.drop 4)
      else if c = 110 then some (.null, rest.drop 3)
      else if c = 45 ∨ (48 ≤ c ∧ c ≤ 57) then
        some (.number (spanNumber (c :: rest)).1, (spanNumber (c :: rest)).2)
      else none

/-- Go `foldRune` on the runes that matter for ASCII field names: a lower-case
ASCII letter, U+017F (long s) and U+212A (Kelvin sign) fold to the upper-case
ASCII letter.  Any other rune folds in Go to the least rune of its simple-fold
orbit, which is never ASCII; it is kept as it is here, which answers every
comparison with the folded name of an ASCII field name the same way. -/
def foldRune (c : Char) : Char :=
  if 97 ≤ c.toNat ∧ c.toNat ≤ 122 then Char.ofNat (c.toNat - 32)
  else if c.toNat = 0x17F then Char.ofNat 83
  else if c.toNat = 0x212A then Char.ofNat 75
  else c

/-- Go `foldName`. -/
def foldName (s : String) : String := String.mk (s.data.map foldRune)

/-- The field a JSON key selects among the JSON names `names` of a struct type:
the field of that exact name, else the first whose folded name is the folded
key (Go `byExactName`, then `byFoldedName`). -/
def matchField (names : List String) (key : String) : Option Nat :=
  match names.indexOf? key with
  | some i => some i
  | none => (names.map foldName).indexOf? (foldName key)

/-- Store of a JSON value into a Go `string` variable holding `old`
(`literalStore`, `array`, `object` for a target of kind string): a string is
stored, `null` leaves the variable alone, anything else leaves it alone and
records an `UnmarshalTypeError`.  The second component tells whether an error
was recorded. -/
def storeString (v : JValue) (old : String) : String × Bool :=
  match v with
  | .string s => (s, false)
  | .null => (old, false)
  | _ => (old, true)

/-- Store of the members of a JSON object into a struct, one member after the
other in the order of the text: `setField i v a` stores `v` into field `i`;
a key that selects no field is skipped. -/
def storeMembers {α : Type} (names : List String) (setField : Nat → JValue → α → α × Bool)
    (kvs : List (String × JValue)) (a : α) : α × Bool :=
  kvs.foldl (fun acc kv =>
    match matchField names kv.1 with
    | some i => ((setField i kv.2 acc.1).1, acc.2 || (setField i kv.2 acc.1).2)
    | none => acc) (a, false)

/-- Store of a JSON value into a struct variable holding `a`: an object is
stored member by member, `null` leaves it alone, anything else records an
`UnmarshalTypeError`. -/
def storeStruct {α : Type} (names : List String) (setField : Nat → JValue → α → α × Bool)
    (v : JValue) (a : α) : α × Bool :=
  match v with
  | .object kvs => storeMembers names setField kvs a
  | .null => (a, false)
  | _ => (a, true)

/-- Go `json.Unmarshal(data, &a)` for a struct variable holding `a`: the
variable afterwards and whether the returned error is non-nil.  A text that
`checkValid` rejects leaves the variable untouched.  (Were the second walk to
disagree with `checkValid`, Go would panic with a phase error; the embedding
reports an error.) -/
def unmarshalStruct {α : Type} (names : List String) (setField : Nat → JValue → α → α × Bool)
    (data : Bytes) (a : α) : α × Bool :=
  if checkValid data then
    match parseValue (data.length + 1) data with
    | some (v, _) => storeStruct names setField v a
    | none => (a, true)
  else (a, true)

/-! ## `encoding/base64`: `StdEncoding.DecodeString` -/

/-- The decode map of `base64.StdEncoding`: the six-bit value of an alphabet
byte, `0xff` for any other byte. -/
def decodeMap (c : Nat) : Nat :=
  if 65 ≤ c ∧ c ≤ 90 then c - 65
  else if 97 ≤ c ∧ c ≤ 122 then c - 71
  else if 48 ≤ c ∧ c ≤ 57 then c + 4
  else if c = 43 then 62
  else if c = 47 then 63
  else 0xff

/-- The loops `for si < len(src) && (src[si] == '\n' || src[si] == '\r')` of
`decodeQuantum`. -/
def skipNewlines : Bytes → Bytes
  | [] => []
  | c :: cs => if c = 10 ∨ c = 13 then skipNewlines cs else c :: cs

/-- How the input loop of `decodeQuantum` ends. -/
inductive QuantumRead
  /-- The input ended before the first digit: `return si, 0, nil`. -/
  | nothing
  /-- A `return si, 0, CorruptInputError(..)`. -/
  | corrupt
  /-- The loop was left with the digits `dbuf` (`dlen` of them), the input
  `rest` still unread, and `err` set when garbage follows the padding. -/
  | digits (dbuf : List Nat) (rest : Bytes) (err : Bool)

/-- The input loop of Go `decodeQuantum` for `StdEncoding` (padding `=`, not
strict): `dbuf` holds the digits read so far, `j = dbuf.length`. -/
def readQuantum : Bytes → List Nat → QuantumRead
  | [], dbuf => if dbuf.length = 0 then .nothing else .corrupt
  | c :: rest, dbuf =>
    if decodeMap c ≠ 0xff then
      if dbuf.length = 3 then .digits (dbuf ++ [decodeMap c]) rest false
      else readQuantum rest (dbuf ++ [decodeMap c])
    else if c = 10 ∨ c = 13 then readQuantum rest dbuf
    else if c ≠ 61 then .corrupt
    else if dbuf.length < 2 then .corrupt
    else if dbuf.length = 2 then
      match skipNewlines rest with
      | [] => .corrupt
      | p :: rest2 =>
        if p ≠ 61 then .corrupt
        else .digits dbuf (skipNewlines rest2) (decide (skipNewlines rest2 ≠ []))
    else .digits dbuf (skipNewlines rest) (decide (skipNewlines rest ≠ []))

/-- The end of Go `decodeQuantum`: `dlen` six-bit digits make `dlen - 1` bytes.
The digits are below 64, so the sum is Go's
`dbuf[0]<<18 | dbuf[1]<<12 | dbuf[2]<<6 | dbuf[3]`. -/
def quantumBytes (dbuf : List Nat) : Bytes :=
  let val := dbuf.getD 0 0 * 262144 + dbuf.getD 1 0 * 4096 + dbuf.getD 2 0 * 64 + dbuf.getD 3 0
  ([val / 65536 % 256, val / 256 % 256, val % 256]).take (dbuf.length - 1)

/-- Go `(*Encoding).decodeQuantum` for `StdEncoding` on the unread input `src`:
the input left, the bytes written, whether an error is returned. -/
def decodeQuantum (src : Bytes) : Bytes × Bytes × Bool :=
  match readQuantum src [] with
  | .nothing => ([], [], false)
  | .corrupt => ([], [], true)
  | .digits dbuf rest err => (rest, quantumBytes dbuf, err)

/-- The loop of Go `(*Encoding).Decode`: quantum after quantum until the input
is used up or a quantum reports an error; the bytes written so far are kept.
(The eight- and four-digit fast paths of `Decode` write the same bytes as
`decodeQuantum` where they apply and fall back to it where they do not.) -/
def decodeLoop : Nat → Bytes → Bytes × Bool
  | 0, _ => ([], false)
  | fuel + 1, src =>
    match src with
    | [] => ([], false)
    | _ :: _ =>
      let q := decodeQuantum src
      if q.2.2 then (q.2.1, true)
      else ((q.2.1 ++ (decodeLoop fuel q.1).1), (decodeLoop fuel q.1).2)

/-- Go `base64.StdEncoding.DecodeString(s)`: the decoded bytes and whether the
error is non-nil.  On malformed input the bytes are those decoded before the
corrupt place. -/
def DecodeString (s : String) : Bytes × Bool :=
  decodeLoop ((stringBytes s).length + 1) (stringBytes s)

/-! ## `net/url`: `Values.Encode` -/

/-- Go `url.Values` written as a map literal: the keys, all different, with
their values. -/
abbrev Values := List (String × List String)

/-- The digits Go `upperhex`. -/
def upperhex (n : Nat) : Nat := if n < 10 then 48 + n else 55 + n

/-- Go `shouldEscape(c, encodeQueryComponent)`: every byte but the ASCII letters
and digits and `-`, `_`, `.`, `~`. -/
def shouldEscape (c : Nat) : Bool :=
  !((97 ≤ c && c ≤ 122) || (65 ≤ c && c ≤ 90) || (48 ≤ c && c ≤ 57)
    || c = 45 || c = 95 || c = 46 || c = 126)

/-- The loop of Go `escape(s, encodeQueryComponent)` over the bytes of `s`: a
space becomes `+`, any other byte that should be escaped becomes `%XX`. -/
def escapeQuery : Bytes → Bytes
  | [] => []
  | c :: cs =>
    if shouldEscape c then
      if c = 32 then 43 :: escapeQuery cs
      else 37 :: upperhex (c / 16) :: upperhex (c % 16) :: escapeQuery cs
    else c :: escapeQuery cs

/-- Go `url.QueryEscape`; the result is ASCII. -/
def QueryEscape (s : String) : String :=
  String.mk ((escapeQuery (stringBytes s)).map Char.ofNat)

/-- The order of Go byte slices: lexicographic by bytes. -/
def bytesLt : Bytes → Bytes → Bool
  | _, [] => false
  | [], _ :: _ => true
  | a :: as, b :: bs => if a < b then true else if b < a then false else bytesLt as bs

/-- Go `a < b` on strings: the bytes are compared. -/
def stringLt (a b : String) : Bool := bytesLt (stringBytes a) (stringBytes b)

/-- Insertion of a key and its values into a list sorted by key. -/
def insertByKey (kv : String × List String) : Values → Values
  | [] => [kv]
  | x :: xs => if stringLt kv.1 x.1 then kv :: x :: xs else x :: insertByKey kv xs

/-- The keys in the order of Go `slices.Sort(keys)`. -/
def sortByKey (v : Values) : Values := v.foldr insertByKey []

/-- Go `Values.Encode`: `key=value` pairs, sorted by key, joined by `&`. -/
def Values.Encode (v : Values) : String :=
  String.intercalate "&"
    (((sortByKey v).map (fun kv => kv.2.map (fun x => QueryEscape kv.1 ++ "=" ++ QueryEscape x))).foldr
      (fun x acc => x ++ acc) [])

/-! ## `net/url`: `ParseQuery`, the reading of a form-encoded body

`account.go` does not call it; it is what the receiver of a request with
content type `application/x-www-form-urlencoded` does with the body, and the
statements about the fields of a request are made through it. -/

/-- Go `unescape(s, encodeQueryComponent)` (`url.QueryUnescape`): `+` becomes a
space and `%XX` the byte of that value; `none` for a `%` not followed by two
hexadecimal digits. -/
def unescapeQuery : Bytes → Option Bytes
  | [] => some []
  | c :: cs =>
    if c = 37 then
      match cs with
      | a :: b :: rest =>
        match hexVal a, hexVal b with
        | some x, some y => (unescapeQuery rest).map (fun t => (x * 16 + y) :: t)
        | _, _ => none
      | _ => none
    else if c = 43 then (unescapeQuery cs).map (fun t => 32 :: t)
    else (unescapeQuery cs).map (fun t => c :: t)

/-- The pieces of a query between the separators `&` (the repeated
`strings.Cut(query, "&")` of Go `parseQuery`). -/
def splitAmp : Bytes → List Bytes
  | [] => [[]]
  | c :: cs =>
    if c = 38 then [] :: splitAmp cs
    else ((c :: (splitAmp cs).headD []) :: (splitAmp cs).tail)

/-- Go `strings.Cut(piece, "=")`: what stands before the first `=` and what
stands after it. -/
def cutEq : Bytes → Bytes × Bytes
  | [] => ([], [])
  | c :: cs => if c = 61 then ([], cs) else (c :: (cutEq cs).1, (cutEq cs).2)

/-- The loop of Go `parseQuery` over the pieces: a piece with a semicolon or a
bad escape is an error and is left out, an empty piece is skipped, any other
piece gives a key and a value.  The pairs are in the order of the text (Go
appends the value to the values of its key); the flag tells whether an error
is returned. -/
def parsePieces : List Bytes → List (Bytes × Bytes) × Bool
  | [] => ([], false)
  | piece :: rest =>
    if piece.contains 59 then ((parsePieces rest).1, true)
    else if piece = [] then parsePieces rest
    else
      match unescapeQuery (cutEq piece).1, unescapeQuery (cutEq piece).2 with
      | some k, some v => ((k, v) :: (parsePieces rest).1, (parsePieces rest).2)
      | _, _ => ((parsePieces rest).1, true)

/-- Go `url.ParseQuery` on the bytes of a query: the fields, as bytes of key and
value, and whether an error is returned. -/
def ParseQuery (query : Bytes) : List (Bytes × Bytes) × Bool := parsePieces (splitAmp query)

/-! ## The types of `account.go` and their JSON decoding -/

/-- Go `type Base64 string`. -/
abbrev Base64 := String

/-- Go `type AccountInfo struct`. -/
structure AccountInfo where
  Username : String
  Password : String
  QuestionId : String
  Answer : String
  deriving DecidableEq, Repr

/-- The zero value of `AccountInfo` (`var accountInfo AccountInfo`). -/
def AccountInfo.zero : AccountInfo := ⟨"", "", "", ""⟩

/-- Go `type LoginResp struct`. -/
structure LoginResp where
  Status : String
  Message : String
  deriving DecidableEq, Repr

/-- The anonymous struct type of the field `Cookie` of `LoginRespSuccess`. -/
structure LoginCookie where
  Auth : String
  deriving DecidableEq, Repr

/-- Go `type LoginRespSuccess struct`, with the embedded `LoginResp`. -/
structure LoginRespSuccess where
  LoginResp : LoginResp
  Formhash : String
  Cookie : LoginCookie
  deriving DecidableEq, Repr

/-- Go `type SignInResp struct`. -/
structure SignInResp where
  Status : String
  Message : String
  deriving DecidableEq, Repr

/-- A Go slice of strings (`[]Base64`): the elements of its backing array that
were written so far, and its length.  The elements of the slice are the first
`len` of `buf`; the ones behind them are what a slice that was shortened still
holds in its array. -/
structure StringSlice where
  buf : List String
  len : Nat
  deriving DecidableEq, Repr

/-- The elements of a slice, as `range` yields them. -/
def StringSlice.elems (s : StringSlice) : List String := s.buf.take s.len

/-- The nil slice. -/
def StringSlice.nil : StringSlice := ⟨[], 0⟩

/-- Go `type ConfigInfo struct`. -/
structure ConfigInfo where
  Proxy : String
  AccountBase64Text : StringSlice
  deriving DecidableEq, Repr

/-- The JSON names of the fields of `AccountInfo`, from its tags. -/
def AccountInfo.names : List String := ["username", "password", "questionId", "answer"]

/-- Store of a JSON value into the field of `AccountInfo` of the given index. -/
def AccountInfo.setField (i : Nat) (v : JValue) (a : AccountInfo) : AccountInfo × Bool :=
  if i = 0 then ({ a with Username := (storeString v a.Username).1 }, (storeString v a.Username).2)
  else if i = 1 then
    ({ a with Password := (storeString v a.Password).1 }, (storeString v a.Password).2)
  else if i = 2 then
    ({ a with QuestionId := (storeString v a.QuestionId).1 }, (storeString v a.QuestionId).2)
  else if i = 3 then ({ a with Answer := (storeString v a.Answer).1 }, (storeString v a.Answer).2)
  else (a, false)

/-- The JSON names of the fields of `LoginResp` and of `SignInResp`. -/
def statusNames : List String := ["status", "message"]

/-- Store of a JSON value into a field of `LoginResp`. -/
def LoginResp.setField (i : Nat) (v : JValue) (a : LoginResp) : LoginResp × Bool :=
  if i = 0 then ({ a with Status := (storeString v a.Status).1 }, (storeString v a.Status).2)
  else if i = 1 then ({ a with Message := (storeString v a.Message).1 }, (storeString v a.Message).2)
  else (a, false)

/-- Store of a JSON value into a field of `SignInResp`. -/
def SignInResp.setField (i : Nat) (v : JValue) (a : SignInResp) : SignInResp × Bool :=
  if i = 0 then ({ a with Status := (storeString v a.Status).1 }, (storeString v a.Status).2)
  else if i = 1 then ({ a with Message := (storeString v a.Message).1 }, (storeString v a.Message).2)
  else (a, false)

/-- Store of a JSON value into the only field, `auth`, of the `Cookie` struct. -/
def LoginCookie.setField (i : Nat) (v : JValue) (a : LoginCookie) : LoginCookie × Bool :=
  if i = 0 then ({ a with Auth := (storeString v a.Auth).1 }, (storeString v a.Auth).2)
  else (a, false)

/-- The JSON names of the fields of `LoginRespSuccess`: the two promoted from
the embedded `LoginResp`, then `formhash` and `cookie`. -/
def LoginRespSuccess.names : List String := ["status", "message", "formhash", "cookie"]

/-- Store of a JSON value into a field of `LoginRespSuccess`. -/
def LoginRespSuccess.setField (i : Nat) (v : JValue) (a : LoginRespSuccess) :
    LoginRespSuccess × Bool :=
  if i = 0 ∨ i = 1 then
    ({ a with LoginResp := (LoginResp.setField i v a.LoginResp).1 },
      (LoginResp.setField i v a.LoginResp).2)
  else if i = 2 then
    ({ a with Formhash := (storeString v a.Formhash).1 }, (storeString v a.Formhash).2)
  else if i = 3 then
    ({ a with Cookie := (storeStruct ["auth"] LoginCookie.setField v a.Cookie).1 },
      (storeStruct ["auth"] LoginCookie.setField v a.Cookie).2)
  else (a, false)

/-- Store of the elements of a JSON array into the variables of a backing array
holding `old`: element `i` is stored into the variable at index `i`, which
holds `old[i]` when the array was written that far (Go sets the length to
`i + 1` and so exposes it again) and the empty string otherwise. -/
def storeElems : List JValue → List String → List String × Bool
  | [], _ => ([], false)
  | x :: xs, old =>
    ((storeString x (old.headD "")).1 :: (storeElems xs old.tail).1,
      (storeString x (old.headD "")).2 || (storeElems xs old.tail).2)

/-- Store of a JSON value into a `[]Base64` variable holding `old` (the
decoder's `array`): a non-empty array is stored element by element into the
backing array and sets the length to the number of its elements, the empty
array gives a fresh empty slice, `null` the nil slice, anything else records
an error.  (When Go has to grow the array, it copies all elements written so
far, so the growth does not show here.) -/
def storeStringSlice (v : JValue) (old : StringSlice) : StringSlice × Bool :=
  match v with
  | .array [] => (⟨[], 0⟩, false)
  | .array (x :: xs) =>
    (⟨(storeElems (x :: xs) old.buf).1 ++ old.buf.drop (x :: xs).length, (x :: xs).length⟩,
      (storeElems (x :: xs) old.buf).2)
  | .null => (StringSlice.nil, false)
  | _ => (old, true)

/-- The JSON names of the fields of `ConfigInfo`: `Proxy` has no tag. -/
def ConfigInfo.names : List String := ["Proxy", "accountBase64Text"]

/-- Store of a JSON value into a field of `ConfigInfo`. -/
def ConfigInfo.setField (i : Nat) (v : JValue) (a : ConfigInfo) : ConfigInfo × Bool :=
  if i = 0 then ({ a with Proxy := (storeString v a.Proxy).1 }, (storeString v a.Proxy).2)
  else if i = 1 then
    ({ a with AccountBase64Text := (storeStringSlice v a.AccountBase64Text).1 },
      (storeStringSlice v a.AccountBase64Text).2)
  else (a, false)

/-- Go `func (Base64 Base64) Decode() []byte`: the error of `DecodeString` is
dropped. -/
def Base64.Decode (b : Base64) : Bytes := (DecodeString b).1

/-- Go `func (Base64 Base64) ToAccountInfo() AccountInfo`: the error of
`json.Unmarshal` is dropped. -/
def Base64.ToAccountInfo (b : Base64) : AccountInfo :=
  (unmarshalStruct AccountInfo.names AccountInfo.setField (Base64.Decode b) AccountInfo.zero).1

/-! ## The outside world -/

/-- What `AddCookie` keeps of a Go `http.Cookie`: its name and its value. -/
structure Cookie where
  Name : String
  Value : String
  deriving DecidableEq, Repr

/-- A Go `*http.Request` as `CreateReq` builds it. -/
structure Request where
  Method : String
  URL : String
  ContentType : String
  Body : String
  Cookies : List Cookie
  deriving DecidableEq, Repr

/-- A Go `*http.Response`: the bytes `io.ReadAll(resp.Body)` yields and the
cookies `resp.Cookies()` yields, in the order of the `Set-Cookie` headers. -/
structure Response where
  Body : Bytes
  Cookies : List Cookie
  deriving DecidableEq, Repr

/-- The two results of `client.Do`: the response, `none` for a nil pointer, and
the error. -/
structure DoResult where
  resp : Option Response
  err : Option String

/-- A Go `*http.Transport`: its proxy, `none` for `Proxy: nil`. -/
structure Transport where
  Proxy : Option String
  deriving DecidableEq, Repr

/-- What the program asks of the world outside it; `σ` is the state of the
remote side. -/
structure Env (σ : Type) where
  /-- The error text of `url.Parse` (and so of `http.NewRequest` with method
  `POST`) for a URL, `none` when it parses. -/
  urlParse : String → Option String
  /-- Go `os.ReadFile`. -/
  readFile : String → Except String Bytes
  /-- The text of the error `json.Unmarshal` returns for a configuration file. -/
  jsonErrorText : Bytes → String
  /-- Go `client.Do(req)` through the given transport, within the time limit of
  five seconds. -/
  clientDo : σ → Transport → Request → DoResult × σ

/-- The loggers: the standard one (`[INFO]`) and the three of `LogKeep`. -/
inductive Logger
  | Info | Success | Error | Warning
  deriving DecidableEq, Repr

/-- The state the program runs in: the remote side, the log lines written, the
requests handed to `client.Do`, both oldest first. -/
structure World (σ : Type) where
  net : σ
  log : List (Logger × String)
  sent : List Request

/-- One more log line. -/
def World.logf {σ : Type} (w : World σ) (l : Logger) (msg : String) : World σ :=
  { w with log := w.log ++ [(l, msg)] }

/-- How a call of a Go function ends. -/
inductive Result (α : Type)
  /-- The function returned. -/
  | returned (a : α)
  /-- A run-time panic (nil pointer dereference). -/
  | panicked
  /-- The goroutine blocks forever. -/
  | blocked
  deriving DecidableEq, Repr

/-- A Go channel of errors in a program with one goroutine: capacity and the
values queued. -/
structure Chan where
  cap : Nat
  buf : List String
  deriving DecidableEq, Repr

/-- Go `make(chan error)`: an unbuffered channel. -/
def Chan.make : Chan := ⟨0, []⟩

/-- Go `ch <- v` with no other goroutine to receive: the value is queued when
the buffer has room, otherwise the sender blocks forever (`none`). -/
def Chan.send (ch : Chan) (v : String) : Option Chan :=
  if ch.buf.length < ch.cap then some { ch with buf := ch.buf ++ [v] } else none

/-- Go `len(ch)`. -/
def Chan.len (ch : Chan) : Nat := ch.buf.length

/-! ## `account.go` -/

/-- Go constant `Reset`. -/
def Reset : String := "\x1b[0m"
/-- Go constant `Red`. -/
def Red : String := "\x1b[31m"
/-- Go constant `Green`. -/
def Green : String := "\x1b[32m"
/-- Go constant `Yellow`. -/
def Yellow : String := "\x1b[33m"
/-- Go constant `Cyan`. -/
def Cyan : String := "\x1b[36m"

/-- Go `(*Request).AddCookie`: the cookie (its name and value) is appended to
the cookies the request carries.  Go writes `name=value` into the `Cookie`
header after sanitising both; for a cookie that `resp.Cookies()` yields, whose
name and value were checked when the `Set-Cookie` header was read, that is the
same name and value. -/
def Request.AddCookie (r : Request) (c : Cookie) : Request :=
  { r with Cookies := r.Cookies ++ [c] }

/-- Go `CreateReq`: a POST request with the encoded form as body and the form
content type, to which the cookies are added one after the other; the error of
`http.NewRequest` is wrapped. -/
def CreateReq {σ : Type} (env : Env σ) (reqUrl : String) (data : Values) (cookie : List Cookie) :
    Except String Request :=
  match env.urlParse reqUrl with
  | some err => .error ("创建请求时发生错误: " ++ Red ++ err ++ Reset)
  | none =>
    .ok (cookie.foldl Request.AddCookie
      { Method := "POST", URL := reqUrl, ContentType := "application/x-www-form-urlencoded",
        Body := Values.Encode data, Cookies := [] })

/-- The lines `if err != nil { Error.Printf(..) }` of `POSTRequest`: what is
logged for the error `err` of `client.Do`. -/
def requestErrorLog (err : Option String) : List (Logger × String) :=
  match err with
  | some e => [(Logger.Error, "客户端请求出错: " ++ Red ++ e ++ Reset)]
  | none => []

/-- Go `POSTRequest`: `resp.Cookies()` is called before the error is looked at,
which panics on the nil response of a failed call. -/
def POSTRequest {σ : Type} (env : Env σ) (req : Request) (transport : Transport) (w : World σ) :
    Result (Bytes × List Cookie) × World σ :=
  let r := env.clientDo w.net transport req
  match r.1.resp with
  | none => (.panicked, { net := r.2, log := w.log, sent := w.sent ++ [req] })
  | some resp =>
    (.returned (resp.Body, resp.Cookies),
      { net := r.2, log := w.log ++ requestErrorLog r.1.err, sent := w.sent ++ [req] })

/-- The text of the login failure error of `AccountSignIn`. -/
def loginFailure (username reason : String) : String :=
  "用户 " ++ Yellow ++ username ++ Reset ++ " 登录失败: " ++ Yellow ++ reason ++ Reset ++ " "

/-- The text of a check-in failure error of `AccountSignIn`, `color` being
`Yellow` or, for a request that could not be built, `Red`. -/
def checkInFailure (username color reason : String) : String :=
  "用户 " ++ Yellow ++ username ++ Reset ++ " 签到失败: " ++ color ++ reason ++ Reset

/-- Go constant URL of the login endpoint. -/
def loginUrl : String := "https://www.t00ls.com/login.json"

/-- Go constant URL of the check-in endpoint. -/
def checkInUrl : String := "https://www.t00ls.com/ajax-sign.json"

/-- The form of the login request. -/
def loginData (accountInfo : AccountInfo) : Values :=
  [("action", ["login"]), ("username", [accountInfo.Username]),
   ("password", [accountInfo.Password]), ("questionid", [accountInfo.QuestionId]),
   ("answer", [accountInfo.Answer])]

/-- The form of the check-in request. -/
def checkInData (formhash : String) : Values :=
  [("formhash", [formhash]), ("signsubmit", ["true"])]

/-- The two lines `var loginResp LoginResp; _ = json.Unmarshal(loginBody, &loginResp)`. -/
def parseLoginResp (loginBody : Bytes) : LoginResp :=
  (unmarshalStruct statusNames LoginResp.setField loginBody ⟨"", ""⟩).1

/-- The two lines `var loginRespSuccess LoginRespSuccess;
_ = json.Unmarshal(loginBody, &loginRespSuccess)`. -/
def parseLoginRespSuccess (loginBody : Bytes) : LoginRespSuccess :=
  (unmarshalStruct LoginRespSuccess.names LoginRespSuccess.setField loginBody
    ⟨⟨"", ""⟩, "", ⟨""⟩⟩).1

/-- The two lines `var checkInResp SignInResp; _ = json.Unmarshal(checkInBody, &checkInResp)`. -/
def parseSignInResp (checkInBody : Bytes) : SignInResp :=
  (unmarshalStruct statusNames SignInResp.setField checkInBody ⟨"", ""⟩).1

/-- Go `AccountSignIn`. -/
def AccountSignIn {σ : Type} (env : Env σ) (accountInfo : AccountInfo) (transport : Transport)
    (w : World σ) : Result (Option String) × World σ :=
  let w0 := w.logf .Info ("用户 " ++ Cyan ++ accountInfo.Username ++ Reset ++ " 开始登录...")
  match CreateReq env loginUrl (loginData accountInfo) [] with
  | .error loginErr => (.returned (some loginErr), w0)
  | .ok loginReq =>
    match POSTRequest env loginReq transport w0 with
    | (.panicked, w1) => (.panicked, w1)
    | (.blocked, w1) => (.blocked, w1)
    | (.returned (loginBody, loginCookie), w1) =>
      let loginResp := parseLoginResp loginBody
      let err : Option String :=
        if loginResp.Status ≠ "success" then
          some (loginFailure accountInfo.Username loginResp.Message)
        else none
      let w2 := w1.logf .Success
        ("用户 " ++ Green ++ accountInfo.Username ++ Reset ++ " 登录成功: " ++ Green ++ "登录成功~" ++ Reset)
      let loginRespSuccess := parseLoginRespSuccess loginBody
      match CreateReq env checkInUrl (checkInData loginRespSuccess.Formhash) loginCookie with
      | .error checkInErr =>
        (.returned (some (checkInFailure accountInfo.Username Red checkInErr)), w2)
      | .ok checkInReq =>
        match POSTRequest env checkInReq transport w2 with
        | (.panicked, w3) => (.panicked, w3)
        | (.blocked, w3) => (.blocked, w3)
        | (.returned (checkInBody, _), w3) =>
          let checkInResp := parseSignInResp checkInBody
          if checkInResp.Status = "success" ∧ checkInResp.Message = "success" then
            (.returned err, w3.logf .Success
              ("用户 " ++ Green ++ accountInfo.Username ++ Reset ++ " 签到成功: " ++ Green
                ++ "签到成功~" ++ Reset))
          else if checkInResp.Status = "fail" then
            if checkInResp.Message = "alreadysign" then
              (.returned (some (checkInFailure accountInfo.Username Yellow "今日已签到~")), w3)
            else
              (.returned (some (checkInFailure accountInfo.Username Yellow checkInResp.Message)),
                w3)
          else (.returned err, w3)

/-- Go `LoadConfigFile`. -/
def LoadConfigFile {σ : Type} (env : Env σ) (configFile : String) (w : World σ) :
    ConfigInfo × Option String × World σ :=
  let w0 := w.logf .Info ("开始读取配置文件: " ++ Cyan ++ configFile ++ Reset)
  match env.readFile configFile with
  | .error e =>
    (⟨"", StringSlice.nil⟩, some ("配置文件读取错误: " ++ Red ++ e ++ Reset ++ ", 请检查配置文件后再次运行"), w0)
  | .ok file =>
    let r := unmarshalStruct ConfigInfo.names ConfigInfo.setField file ⟨"", StringSlice.nil⟩
    if r.2 then
      (r.1, some ("配置文件格式错误: " ++ Red ++ env.jsonErrorText file ++ Reset
        ++ ", 请检查配置文件后再次运行"), w0)
    else (r.1, none, w0)

/-- The text of the error `RunTask` means to return after a run with failures. -/
def batchError : String := "存在错误, 请查看日志"

/-- The loop of Go `RunTask` over the accounts still to do; `err` is the named
result of `RunTask`, which the loop assigns.  Returns the channel and `err`
after the last account. -/
def runAccounts {σ : Type} (env : Env σ) (transport : Transport) :
    List Base64 → Chan → Option String → World σ → Result (Chan × Option String) × World σ
  | [], errorChan, err, w => (.returned (errorChan, err), w)
  | base64Text :: rest, errorChan, _, w =>
    let accountInfo := Base64.ToAccountInfo base64Text
    match AccountSignIn env accountInfo transport w with
    | (.panicked, w1) => (.panicked, w1)
    | (.blocked, w1) => (.blocked, w1)
    | (.returned none, w1) => runAccounts env transport rest errorChan none w1
    | (.returned (some e), w1) =>
      let w2 := w1.logf .Error e
      match errorChan.send e with
      | none => (.blocked, w2)
      | some ch => runAccounts env transport rest ch (some e) w2

/-- Go `RunTask`. -/
def RunTask {σ : Type} (env : Env σ) (config_file : String) (w : World σ) :
    Result (Option String) × World σ :=
  match LoadConfigFile env config_file w with
  | (_, some err, w0) => (.returned (some err), w0)
  | (config, none, w0) =>
    let setup : Except String (Transport × World σ) :=
      if config.Proxy = "" then
        .ok (⟨none⟩, w0.logf .Info "未发现代理配置,将正常运行")
      else
        match env.urlParse config.Proxy with
        | some e => .error ("代理配置错误: " ++ Red ++ e ++ Reset ++ ", 请检查配置文件后再次运行")
        | none => .ok (⟨some config.Proxy⟩, w0.logf .Info ("配置代理: " ++ Cyan ++ config.Proxy ++ Reset))
    match setup with
    | .error e => (.returned (some e), w0)
    | .ok (transport, w1) =>
      match runAccounts env transport config.AccountBase64Text.elems Chan.make none w1 with
      | (.panicked, w2) => (.panicked, w2)
      | (.blocked, w2) => (.blocked, w2)
      | (.returned (errorChan, err), w2) =>
        if errorChan.len > 0 then (.returned (some batchError), w2)
        else (.returned err, w2)

/-! ## The exchanges of one sign-in, for the statements below -/

/-- The request `AccountSignIn` builds for the login step. -/
def loginRequest (accountInfo : AccountInfo) : Request :=
  { Method := "POST", URL := loginUrl, ContentType := "application/x-www-form-urlencoded",
    Body := Values.Encode (loginData accountInfo), Cookies := [] }

/-- The request `AccountSignIn` builds for the check-in step after a login
response with body `loginBody` and cookies `loginCookie`. -/
def checkInRequest (loginBody : Bytes) (loginCookie : List Cookie) : Request :=
  { Method := "POST", URL := checkInUrl, ContentType := "application/x-www-form-urlencoded",
    Body := Values.Encode (checkInData (parseLoginRespSuccess loginBody).Formhash),
    Cookies := loginCookie }

/-- What `client.Do` answers to the login request of `accountInfo` in world `w`. -/
def loginExchange {σ : Type} (env : Env σ) (accountInfo : AccountInfo) (transport : Transport)
    (w : World σ) : DoResult × σ :=
  env.clientDo w.net transport (loginRequest accountInfo)

/-- What `client.Do` answers to the check-in request that follows the login
response `lr`. -/
def checkInExchange {σ : Type} (env : Env σ) (accountInfo : AccountInfo) (transport : Transport)
    (w : World σ) (lr : Response) : DoResult × σ :=
  env.clientDo (loginExchange env accountInfo transport w).2 transport
    (checkInRequest lr.Body lr.Cookies)

/-- The answer of `client.Do` that delivers a response with the given body and
cookies and no error. -/
def delivered (body : Bytes) (cookies : List Cookie) : DoResult :=
  ⟨some ⟨body, cookies⟩, none⟩

/-- The answer of `client.Do` to a call that fails in transport (refused
connection, time limit passed): no response and an error. -/
def transportFailure (msg : String) : DoResult := ⟨none, some msg⟩

/-- A mocked remote side: every request to the login URL is answered with
`login`, every other request with `checkIn`; `url.Parse` accepts every URL and
the configuration file holds `config`. -/
def mockEnv (config : Bytes) (login checkIn : DoResult) : Env Unit where
  urlParse := fun _ => none
  readFile := fun _ => .ok config
  jsonErrorText := fun _ => "invalid"
  clientDo := fun s _ req => if req.URL = loginUrl then (login, s) else (checkIn, s)

/-- Login response of a successful login, with token `F` and cookie `auth=A`. -/
def okLogin : DoResult :=
  delivered
    (stringBytes "\x7b\"status\":\"success\",\"formhash\":\"F\",\"cookie\":\x7b\"auth\":\"A\"\x7d\x7d")
    [⟨"auth", "A"⟩]

/-- Login response of a successful login whose token holds the separators of a
form, `x&signsubmit=false`. -/
def trickyLogin : DoResult :=
  delivered
    (stringBytes "\x7b\"status\":\"success\",\"formhash\":\"x&signsubmit=false\"\x7d")
    [⟨"auth", "A"⟩]

/-- Login response of a refused login, with message `x`. -/
def failLogin : DoResult :=
  delivered (stringBytes "\x7b\"status\":\"fail\",\"message\":\"x\"\x7d") []

/-- Check-in response of a successful check-in. -/
def okCheckIn : DoResult :=
  delivered (stringBytes "\x7b\"status\":\"success\",\"message\":\"success\"\x7d") []

/-- Check-in response of an account that has signed in today. -/
def doneCheckIn : DoResult :=
  delivered (stringBytes "\x7b\"status\":\"fail\",\"message\":\"alreadysign\"\x7d") []

/-- Check-in response of a failed check-in, with message `other`. -/
def otherCheckIn : DoResult :=
  delivered (stringBytes "\x7b\"status\":\"fail\",\"message\":\"other\"\x7d") []

/-- Check-in response that is neither the success pair nor a failure. -/
def oddCheckIn : DoResult :=
  delivered (stringBytes "\x7b\"status\":\"success\",\"message\":\"other\"\x7d") []

/-- An account. -/
def someAccount : AccountInfo := ⟨"u", "p", "1", "x"⟩

/-- A configuration file without proxy and with two accounts, `u` and `v`. -/
def twoAccounts : Bytes :=
  stringBytes ("\x7b\"Proxy\":\"\",\"accountBase64Text\":[\""
    ++ "eyJ1c2VybmFtZSI6InUiLCJwYXNzd29yZCI6InAiLCJxdWVzdGlvbklkIjoiMSIsImFuc3dlciI6IngifQ=="
    ++ "\",\""
    ++ "eyJ1c2VybmFtZSI6InYiLCJwYXNzd29yZCI6InAiLCJxdWVzdGlvbklkIjoiMSIsImFuc3dlciI6IngifQ=="
    ++ "\"]\x7d")

/-- The world before the run: nothing logged, nothing sent. -/
def World.start : World Unit := ⟨(), [], []⟩

/-! ## The encodings the specification names, for the round trip

The specification describes an entry of `accountBase64Text` as the standard
base64 encoding of a UTF-8 JSON object with the four account fields.  The
encoders below write such an entry; they are not part of `account.go`. -/

/-- The base64 alphabet of RFC 4648, section 4: the character of a six-bit
value. -/
def encodeStd (n : Nat) : Nat :=
  if n < 26 then 65 + n
  else if n < 52 then 71 + n
  else if n < 62 then n - 4
  else if n = 62 then 43
  else 47

/-- Standard base64 with padding (RFC 4648, section 4; Go
`StdEncoding.EncodeToString`), as character codes: three bytes make four
characters, a last group of one or two bytes is padded with `=`. -/
def encodeBytes : Bytes → Bytes
  | [] => []
  | [a] => [encodeStd (a / 4), encodeStd (a % 4 * 16), 61, 61]
  | [a, b] => [encodeStd (a / 4), encodeStd (a % 4 * 16 + b / 16), encodeStd (b % 16 * 4), 61]
  | a :: b :: c :: rest =>
    encodeStd (a / 4) :: encodeStd (a % 4 * 16 + b / 16) :: encodeStd (b % 16 * 4 + c / 64)
      :: encodeStd (c % 64) :: encodeBytes rest

/-- The standard base64 encoding of `src` as a string. -/
def EncodeToString (src : Bytes) : String := String.mk ((encodeBytes src).map Char.ofNat)

/-- A lower-case hexadecimal digit. -/
def hexDigit (n : Nat) : Nat := if n < 10 then 48 + n else 87 + n

/-- One character inside a JSON string literal (RFC 8259, section 7): the
quotation mark and the backslash are written with a backslash, a control
character as `\u00XX`, any other character as its UTF-8 bytes. -/
def quoteChar (c : Char) : Bytes :=
  if c.toNat = 34 then [92, 34]
  else if c.toNat = 92 then [92, 92]
  else if c.toNat < 32 then [92, 117, 48, 48, hexDigit (c.toNat / 16), hexDigit (c.toNat % 16)]
  else utf8EncodeRune c.toNat

/-- The characters of a JSON string literal between its quotation marks. -/
def quoteBody : List Char → Bytes
  | [] => []
  | c :: cs => quoteChar c ++ quoteBody cs

/-- The JSON text of the object
`{"username":u,"password":p,"questionId":q,"answer":a}`. -/
def accountJSON (u p q a : String) : Bytes :=
  123 :: 34 :: quoteBody "username".data ++ 34 :: 58 :: 34 :: quoteBody u.data
    ++ 34 :: 44 :: 34 :: quoteBody "password".data ++ 34 :: 58 :: 34 :: quoteBody p.data
    ++ 34 :: 44 :: 34 :: quoteBody "questionId".data ++ 34 :: 58 :: 34 :: quoteBody q.data
    ++ 34 :: 44 :: 34 :: quoteBody "answer".data ++ 34 :: 58 :: 34 :: quoteBody a.data
    ++ [34, 125]

/-! # Theorems -/

/-! ## UTF-8 and JSON string literals -/

theorem char_cases (c : Char) : c.toNat < 0xD800 ∨ (0xDFFF < c.toNat ∧ c.toNat < 0x110000) := by
  have := c.valid
  simp only [Char.toNat, UInt32.isValidChar, Nat.isValidChar] at *
  exact this

theorem decodeRune_encode (n : Nat) (rest : Bytes) (h80 : 0x80 ≤ n)
    (hv : n < 0xD800 ∨ (0xDFFF < n ∧ n < 0x110000)) :
    decodeRune (utf8EncodeRune n ++ rest) = (n, (utf8EncodeRune n).length) ∧
      0x80 ≤ (utf8EncodeRune n ++ rest).headD 0 := by
  unfold utf8EncodeRune
  rw [if_neg (by omega)]
  by_cases h1 : n < 0x800
  · rw [if_pos h1]
    simp only [decodeRune, List.cons_append, List.nil_append, List.length_cons, List.length_nil]
    rw [if_neg (by omega), if_pos (by omega), if_pos (by omega)]
    simp only [List.headD_cons, Prod.mk.injEq, and_true]
    omega
  · rw [if_neg h1]
    by_cases h2 : n < 0x10000
    · rw [if_pos h2]
      simp only [decodeRune, List.cons_append, List.nil_append, List.length_cons, List.length_nil]
      rw [if_neg (by omega), if_neg (by omega), if_pos (by omega), if_pos]
      · simp only [List.headD_cons, Prod.mk.injEq, and_true]
        omega
      · split_ifs <;> omega
    · rw [if_neg h2]
      simp only [decodeRune, List.cons_append, List.nil_append, List.length_cons, List.length_nil]
      rw [if_neg (by omega), if_neg (by omega), if_neg (by omega), if_pos (by omega), if_pos]
      · simp only [List.headD_cons, Prod.mk.injEq, and_true]
        omega
      · split_ifs <;> omega

theorem hexVal_hexDigit (n : Nat) (h : n < 16) : hexVal (hexDigit n) = some n := by
  interval_cases n <;> decide

theorem isHexDigit_hexDigit (n : Nat) (h : n < 16) : isHexDigit (hexDigit n) = true := by
  interval_cases n <;> decide

/-- Every byte of the encoding of a rune from U+0080 on is at least `0x80`. -/
theorem utf8EncodeRune_high (n : Nat) (h80 : 0x80 ≤ n) : ∀ b ∈ utf8EncodeRune n, 0x80 ≤ b := by
  intro b hb
  unfold utf8EncodeRune at hb
  split_ifs at hb <;> simp at hb <;> omega

theorem unquoteFrom_quoteChar (c : Char) (tail : Bytes) (fuel : Nat) :
    unquoteFrom (fuel + 1) (quoteChar c ++ tail)
      = (unquoteFrom fuel tail).map (fun p => (c :: p.1, p.2)) := by
  have hc := Char.ofNat_toNat c
  unfold quoteChar
  by_cases h34 : c.toNat = 34
  · rw [if_pos h34]
    simp [unquoteFrom]
    rw [← h34, hc]
  · rw [if_neg h34]
    by_cases h92 : c.toNat = 92
    · rw [if_pos h92]
      simp [unquoteFrom]
      rw [← h92, hc]
    · rw [if_neg h92]
      by_cases h32 : c.toNat < 32
      · rw [if_pos h32]
        have hx : hexVal 48 = some 0 := by decide
        have h1 := hexVal_hexDigit (c.toNat / 16) (by omega)
        have h2 := hexVal_hexDigit (c.toNat % 16) (by omega)
        have hv : ((0 * 16 + 0) * 16 + c.toNat / 16) * 16 + c.toNat % 16 = c.toNat := by omega
        have hv2 : c.toNat / 16 * 16 + c.toNat % 16 = c.toNat := by omega
        simp [unquoteFrom, getu4, hx, h1, h2, hv]
        rw [hv2, if_neg (by omega), hc]
      · rw [if_neg h32]
        by_cases h80 : c.toNat < 0x80
        · have : utf8EncodeRune c.toNat = [c.toNat] := by simp [utf8EncodeRune, h80]
          rw [this]
          simp [unquoteFrom, h34, h92, h32, h80, hc]
        · have hd := decodeRune_encode c.toNat tail (by omega) (char_cases c)
          have hlen : 1 ≤ (utf8EncodeRune c.toNat).length := by
            unfold utf8EncodeRune
            split_ifs <;> simp
          cases hl : utf8EncodeRune c.toNat ++ tail with
          | nil =>
            have := congrArg List.length hl
            simp only [List.length_append, List.length_nil] at this
            omega
          | cons b bs =>
            rw [hl] at hd
            simp only [List.headD_cons] at hd
            simp only [unquoteFrom]
            rw [if_neg (by omega), if_neg (by omega), if_neg (by omega), if_neg (by omega)]
            rw [hd.1, ← hl]
            simp [hc]

theorem unquoteFrom_quoteBody (u : List Char) (rest : Bytes) :
    ∀ fuel, u.length < fuel → unquoteFrom fuel (quoteBody u ++ 34 :: rest) = some (u, rest) := by
  induction u with
  | nil =>
    intro fuel h
    cases fuel with
    | zero => omega
    | succ f => simp [quoteBody, unquoteFrom]
  | cons c cs ih =>
    intro fuel h
    cases fuel with
    | zero => omega
    | succ f =>
      simp only [quoteBody, List.append_assoc]
      rw [unquoteFrom_quoteChar, ih f (by simpa using h)]
      rfl

theorem scan_plain (ps : List ParseState) (l tail : Bytes)
    (h : ∀ b ∈ l, 32 ≤ b ∧ b ≠ 34 ∧ b ≠ 92) :
    checkValidFrom ⟨.inString, ps, false, false⟩ (l ++ tail)
      = checkValidFrom ⟨.inString, ps, false, false⟩ tail := by
  induction l with
  | nil => rfl
  | cons b bs ih =>
    have hb := h b (by simp)
    have hbs : ∀ x ∈ bs, 32 ≤ x ∧ x ≠ 34 ∧ x ≠ 92 := fun x hx => h x (by simp [hx])
    have h1 : ¬ b < 32 := by omega
    simp only [List.cons_append, checkValidFrom, Scanner.run, stateInString]
    simp [hb.2.1, hb.2.2, h1]
    exact ih hbs

theorem scan_quoteChar (ps : List ParseState) (c : Char) (tail : Bytes) :
    checkValidFrom ⟨.inString, ps, false, false⟩ (quoteChar c ++ tail)
      = checkValidFrom ⟨.inString, ps, false, false⟩ tail := by
  unfold quoteChar
  by_cases h34 : c.toNat = 34
  · rw [if_pos h34]
    simp [checkValidFrom, Scanner.run, stateInString, stateInStringEsc]
  · rw [if_neg h34]
    by_cases h92 : c.toNat = 92
    · rw [if_pos h92]
      simp [checkValidFrom, Scanner.run, stateInString, stateInStringEsc]
    · rw [if_neg h92]
      by_cases h32 : c.toNat < 32
      · rw [if_pos h32]
        have hx : isHexDigit 48 = true := by decide
        have h1 := isHexDigit_hexDigit (c.toNat / 16) (by omega)
        have h2 := isHexDigit_hexDigit (c.toNat % 16) (by omega)
        simp [checkValidFrom, Scanner.run, stateInString, stateInStringEsc,
          stateInStringEscHex, hx, h1, h2]
      · rw [if_neg h32]
        apply scan_plain
        intro b hb
        by_cases h80 : c.toNat < 0x80
        · have : utf8EncodeRune c.toNat = [c.toNat] := by simp [utf8EncodeRune, h80]
          rw [this] at hb
          simp at hb
          omega
        · have := utf8EncodeRune_high c.toNat (by omega) b hb
          omega

theorem scan_quoteBody (ps : List ParseState) (u : List Char) (tail : Bytes) :
    checkValidFrom ⟨.inString, ps, false, false⟩ (quoteBody u ++ tail)
      = checkValidFrom ⟨.inString, ps, false, false⟩ tail := by
  induction u with
  | nil => rfl
  | cons c cs ih =>
    simp only [quoteBody, List.append_assoc]
    rw [scan_quoteChar, ih]

/-- The text of an object of four members with string values. -/
theorem checkValid_object4 (k1 v1 k2 v2 k3 v3 k4 v4 : List Char) :
    checkValid (123 :: 34 :: (quoteBody k1 ++ 34 :: 58 :: 34 :: (quoteBody v1 ++ 34 :: 44 :: 34 ::
      (quoteBody k2 ++ 34 :: 58 :: 34 :: (quoteBody v2 ++ 34 :: 44 :: 34 ::
      (quoteBody k3 ++ 34 :: 58 :: 34 :: (quoteBody v3 ++ 34 :: 44 :: 34 ::
      (quoteBody k4 ++ 34 :: 58 :: 34 :: (quoteBody v4 ++ [34, 125]))))))))) = true := by
  simp [checkValid, Scanner.reset, checkValidFrom, Scanner.run, stateBeginValue, isSpace,
    Scanner.pushParseState, maxNestingDepth, stateBeginStringOrEmpty, stateBeginString,
    scan_quoteBody, stateInString, stateEndValue, Scanner.popParseState, Scanner.eof]

theorem accountJSON_eq (u p q a : String) :
    accountJSON u p q a = 123 :: 34 :: (quoteBody "username".data ++ 34 :: 58 :: 34 ::
      (quoteBody u.data ++ 34 :: 44 :: 34 ::
      (quoteBody "password".data ++ 34 :: 58 :: 34 :: (quoteBody p.data ++ 34 :: 44 :: 34 ::
      (quoteBody "questionId".data ++ 34 :: 58 :: 34 :: (quoteBody q.data ++ 34 :: 44 :: 34 ::
      (quoteBody "answer".data ++ 34 :: 58 :: 34 :: (quoteBody a.data ++ [34, 125])))))))) := by
  simp only [accountJSON, List.cons_append, List.append_assoc, List.nil_append]

theorem checkValid_accountJSON (u p q a : String) : checkValid (accountJSON u p q a) = true := by
  rw [accountJSON_eq]
  exact checkValid_object4 _ _ _ _ _ _ _ _

theorem quoteChar_length_pos (c : Char) : 1 ≤ (quoteChar c).length := by
  unfold quoteChar utf8EncodeRune
  split_ifs <;> simp

theorem quoteBody_length (u : List Char) : u.length ≤ (quoteBody u).length := by
  induction u with
  | nil => simp [quoteBody]
  | cons c cs ih =>
    have := quoteChar_length_pos c
    simp only [quoteBody, List.length_cons, List.length_append]
    omega

theorem parseString_quoteBody (u : List Char) (rest : Bytes) :
    parseString (quoteBody u ++ 34 :: rest) = some (String.mk u, rest) := by
  unfold parseString
  rw [unquoteFrom_quoteBody]
  · rfl
  · have := quoteBody_length u
    simp only [List.length_append, List.length_cons]
    omega

theorem parseValue_string (f : Nat) (u : List Char) (rest : Bytes) :
    parseValue (f + 1) (34 :: (quoteBody u ++ 34 :: rest)) = some (.string (String.mk u), rest) := by
  simp [parseValue, skipSpace, isSpace, parseString_quoteBody]

theorem parseMembers_more (pv : Bytes → Option (JValue × Bytes)) (f : Nat) (k : List Char)
    (r2 r4 : Bytes) (v : JValue) (h : pv r2 = some (v, 44 :: r4)) :
    parseMembers pv (f + 1) (34 :: (quoteBody k ++ 34 :: 58 :: r2))
      = (parseMembers pv f r4).map (fun p => ((String.mk k, v) :: p.1, p.2)) := by
  simp [parseMembers, skipSpace, isSpace, parseString_quoteBody, h]

theorem parseMembers_last (pv : Bytes → Option (JValue × Bytes)) (f : Nat) (k : List Char)
    (r2 r4 : Bytes) (v : JValue) (h : pv r2 = some (v, 125 :: r4)) :
    parseMembers pv (f + 1) (34 :: (quoteBody k ++ 34 :: 58 :: r2))
      = some ([(String.mk k, v)], r4) := by
  simp [parseMembers, skipSpace, isSpace, parseString_quoteBody, h]

theorem parseValue_object4 (f : Nat) (k1 v1 k2 v2 k3 v3 k4 v4 : List Char) :
    parseValue (f + 5) (123 :: 34 :: (quoteBody k1 ++ 34 :: 58 :: 34 :: (quoteBody v1 ++ 34 :: 44 :: 34 ::
      (quoteBody k2 ++ 34 :: 58 :: 34 :: (quoteBody v2 ++ 34 :: 44 :: 34 ::
      (quoteBody k3 ++ 34 :: 58 :: 34 :: (quoteBody v3 ++ 34 :: 44 :: 34 ::
      (quoteBody k4 ++ 34 :: 58 :: 34 :: (quoteBody v4 ++ [34, 125])))))))))
      = some (.object [(String.mk k1, .string (String.mk v1)), (String.mk k2, .string (String.mk v2)),
          (String.mk k3, .string (String.mk v3)), (String.mk k4, .string (String.mk v4))], []) := by
  have hs : ∀ cs : Bytes, skipSpace (34 :: cs) = 34 :: cs := fun cs => by simp [skipSpace, isSpace]
  have hb : ∀ cs : Bytes, skipSpace (123 :: cs) = 123 :: cs := fun cs => by
    simp [skipSpace, isSpace]
  rw [parseValue]
  simp only [hs, hb]
  rw [if_pos trivial, if_neg (by decide)]
  rw [parseMembers_more _ _ _ _ _ _ (parseValue_string _ _ _),
    parseMembers_more _ _ _ _ _ _ (parseValue_string _ _ _),
    parseMembers_more _ _ _ _ _ _ (parseValue_string _ _ _),
    parseMembers_last _ _ _ _ _ _ (parseValue_string _ _ _)]
  rfl

theorem unmarshal_accountJSON (u p q a : String) :
    unmarshalStruct AccountInfo.names AccountInfo.setField (accountJSON u p q a) AccountInfo.zero
      = (⟨u, p, q, a⟩, false) := by
  have hlen : (accountJSON u p q a).length + 1 = ((accountJSON u p q a).length - 4) + 5 := by
    have : 5 ≤ (accountJSON u p q a).length := by
      rw [accountJSON_eq]
      simp only [List.length_cons, List.length_append]
      omega
    omega
  unfold unmarshalStruct
  rw [checkValid_accountJSON, if_pos rfl, hlen]
  rw [accountJSON_eq, parseValue_object4]
  have h0 : matchField AccountInfo.names "username" = some 0 := by decide
  have h1 : matchField AccountInfo.names "password" = some 1 := by decide
  have h2 : matchField AccountInfo.names "questionId" = some 2 := by decide
  have h3 : matchField AccountInfo.names "answer" = some 3 := by decide
  simp [storeStruct, storeMembers, h0, h1, h2, h3, AccountInfo.setField, storeString,
    AccountInfo.zero]

/-! ## Base64 -/

theorem toNat_ofNat_ascii (x : Nat) (h : x < 128) : (Char.ofNat x).toNat = x := by
  have hv : x.isValidChar := Or.inl (by omega)
  simp only [Char.ofNat, hv, Char.ofNatAux, Char.toNat, dite_true]
  rfl

theorem stringBytes_ofCodes (l : Bytes) (h : ∀ x ∈ l, x < 128) :
    stringBytes (String.mk (l.map Char.ofNat)) = l := by
  induction l with
  | nil => rfl
  | cons x xs ih =>
    have hx := h x (by simp)
    have hxs : ∀ y ∈ xs, y < 128 := fun y hy => h y (by simp [hy])
    have ih2 := ih hxs
    simp only [stringBytes, List.map_cons, List.foldr_cons, List.map_map] at ih2 ⊢
    rw [ih2]
    simp [toNat_ofNat_ascii x hx, utf8EncodeRune, hx]

theorem encodeStd_lt (n : Nat) : encodeStd n < 128 := by
  unfold encodeStd
  split_ifs <;> omega

theorem encodeBytes_lt : ∀ (bs : Bytes), ∀ x ∈ encodeBytes bs, x < 128
  | [] => by simp [encodeBytes]
  | [a] => by
    intro x hx
    simp only [encodeBytes, List.mem_cons, List.mem_singleton, List.not_mem_nil, or_false] at hx
    rcases hx with h | h | h | h <;> subst h <;> first | exact encodeStd_lt _ | decide
  | [a, b] => by
    intro x hx
    simp only [encodeBytes, List.mem_cons, List.mem_singleton, List.not_mem_nil, or_false] at hx
    rcases hx with h | h | h | h <;> subst h <;> first | exact encodeStd_lt _ | decide
  | a :: b :: c :: rest => by
    intro x hx
    simp only [encodeBytes, List.mem_cons] at hx
    rcases hx with h | h | h | h | h
    · subst h; exact encodeStd_lt _
    · subst h; exact encodeStd_lt _
    · subst h; exact encodeStd_lt _
    · subst h; exact encodeStd_lt _
    · exact encodeBytes_lt rest x h

theorem stringBytes_EncodeToString (bs : Bytes) :
    stringBytes (EncodeToString bs) = encodeBytes bs :=
  stringBytes_ofCodes _ (encodeBytes_lt bs)

theorem decodeMap_encodeStd (n : Nat) (h : n < 64) : decodeMap (encodeStd n) = n := by
  interval_cases n <;> decide

theorem readQuantum_four (d0 d1 d2 d3 : Nat) (h0 : d0 < 64) (h1 : d1 < 64) (h2 : d2 < 64)
    (h3 : d3 < 64) (tail : Bytes) :
    readQuantum (encodeStd d0 :: encodeStd d1 :: encodeStd d2 :: encodeStd d3 :: tail) []
      = .digits [d0, d1, d2, d3] tail false := by
  have e0 := decodeMap_encodeStd d0 h0
  have e1 := decodeMap_encodeStd d1 h1
  have e2 := decodeMap_encodeStd d2 h2
  have e3 := decodeMap_encodeStd d3 h3
  have n0 : d0 ≠ 255 := by omega
  have n1 : d1 ≠ 255 := by omega
  have n2 : d2 ≠ 255 := by omega
  have n3 : d3 ≠ 255 := by omega
  simp [readQuantum, e0, e1, e2, e3, n0, n1, n2, n3]

theorem readQuantum_three (d0 d1 d2 : Nat) (h0 : d0 < 64) (h1 : d1 < 64) (h2 : d2 < 64) :
    readQuantum [encodeStd d0, encodeStd d1, encodeStd d2, 61] []
      = .digits [d0, d1, d2] [] false := by
  have e0 := decodeMap_encodeStd d0 h0
  have e1 := decodeMap_encodeStd d1 h1
  have e2 := decodeMap_encodeStd d2 h2
  have n0 : d0 ≠ 255 := by omega
  have n1 : d1 ≠ 255 := by omega
  have n2 : d2 ≠ 255 := by omega
  have p : decodeMap 61 = 255 := by decide
  simp [readQuantum, e0, e1, e2, n0, n1, n2, p, skipNewlines]

theorem readQuantum_two (d0 d1 : Nat) (h0 : d0 < 64) (h1 : d1 < 64) :
    readQuantum [encodeStd d0, encodeStd d1, 61, 61] []
      = .digits [d0, d1] [] false := by
  have e0 := decodeMap_encodeStd d0 h0
  have e1 := decodeMap_encodeStd d1 h1
  have n0 : d0 ≠ 255 := by omega
  have n1 : d1 ≠ 255 := by omega
  have p : decodeMap 61 = 255 := by decide
  simp [readQuantum, e0, e1, n0, n1, p, skipNewlines]

theorem decodeLoop_encodeBytes : ∀ (bs : Bytes), (∀ x ∈ bs, x < 256) →
    ∀ fuel, (encodeBytes bs).length < fuel → decodeLoop fuel (encodeBytes bs) = (bs, false)
  | [], _, fuel, _ => by
    cases fuel <;> simp [encodeBytes, decodeLoop]
  | [a], h, fuel, hf => by
    cases fuel with
    | zero => omega
    | succ f =>
      have ha := h a (by simp)
      simp only [encodeBytes, decodeLoop, decodeQuantum]
      rw [readQuantum_two _ _ (by omega) (by omega)]
      simp [quantumBytes, decodeLoop]
      cases f <;> simp [decodeLoop] <;> omega
  | [a, b], h, fuel, hf => by
    cases fuel with
    | zero => omega
    | succ f =>
      have ha := h a (by simp)
      have hb := h b (by simp)
      simp only [encodeBytes, decodeLoop, decodeQuantum]
      rw [readQuantum_three _ _ _ (by omega) (by omega) (by omega)]
      simp [quantumBytes, decodeLoop]
      cases f <;> simp [decodeLoop] <;> omega
  | a :: b :: c :: rest, h, fuel, hf => by
    cases fuel with
    | zero => omega
    | succ f =>
      have ha := h a (by simp)
      have hb := h b (by simp)
      have hc := h c (by simp)
      have hr : ∀ x ∈ rest, x < 256 := fun x hx => h x (by simp [hx])
      have ih := decodeLoop_encodeBytes rest hr f (by
        simp only [encodeBytes, List.length_cons] at hf
        omega)
      simp only [encodeBytes, decodeLoop, decodeQuantum]
      rw [readQuantum_four _ _ _ _ (by omega) (by omega) (by omega) (by omega)]
      simp [quantumBytes, ih]
      omega

theorem utf8EncodeRune_lt (n : Nat) (h : n < 0x110000) : ∀ b ∈ utf8EncodeRune n, b < 256 := by
  intro b hb
  unfold utf8EncodeRune at hb
  split_ifs at hb <;> simp at hb <;> omega

theorem hexDigit_lt (n : Nat) (h : n < 16) : hexDigit n < 256 := by
  unfold hexDigit
  split_ifs <;> omega

theorem quoteChar_lt (c : Char) : ∀ b ∈ quoteChar c, b < 256 := by
  intro b hb
  unfold quoteChar at hb
  split_ifs at hb with h1 h2 h3
  · simp at hb
    omega
  · simp at hb
    omega
  · have := hexDigit_lt (c.toNat / 16) (by omega)
    have := hexDigit_lt (c.toNat % 16) (by omega)
    simp at hb
    omega
  · exact utf8EncodeRune_lt c.toNat (by have := char_cases c; omega) b hb

theorem quoteBody_lt (u : List Char) : ∀ b ∈ quoteBody u, b < 256 := by
  induction u with
  | nil => simp [quoteBody]
  | cons c cs ih =>
    intro b hb
    simp only [quoteBody, List.mem_append] at hb
    rcases hb with h | h
    · exact quoteChar_lt c b h
    · exact ih b h

theorem accountJSON_lt (u p q a : String) : ∀ b ∈ accountJSON u p q a, b < 256 := by
  intro b hb
  rw [accountJSON_eq] at hb
  simp only [List.mem_cons, List.mem_append, List.mem_singleton, List.not_mem_nil,
    or_false] at hb
  have hq := fun (l : List Char) (h : b ∈ quoteBody l) => quoteBody_lt l b h
  rcases hb with h | h | h | h | h | h | h | h | h | h | h | h | h | h | h | h | h | h | h | h | h
    | h | h | h | h | h | h | h | h | h | h | h | h
  all_goals first | (subst h; decide) | exact hq _ h

/-! ## Form encoding (`net/url`) -/

/-- The bytes of a concatenation. -/
theorem stringBytes_append (a b : String) :
    stringBytes (a ++ b) = stringBytes a ++ stringBytes b := by
  simp only [stringBytes, String.data_append, List.map_append]
  induction a.data with
  | nil => simp
  | cons c cs ih => simp [ih]

theorem stringBytes_lt (s : String) : ∀ b ∈ stringBytes s, b < 256 := by
  unfold stringBytes
  induction s.data with
  | nil => simp
  | cons c cs ih =>
    intro b hb
    simp only [List.map_cons, List.foldr_cons, List.mem_append] at hb
    rcases hb with h | h
    · exact utf8EncodeRune_lt c.toNat (by have := char_cases c; omega) b h
    · exact ih b h

theorem upperhex_range (n : Nat) (h : n < 16) :
    (48 ≤ upperhex n ∧ upperhex n ≤ 57) ∨ (65 ≤ upperhex n ∧ upperhex n ≤ 70) := by
  unfold upperhex
  split_ifs <;> omega

theorem hexVal_upperhex (n : Nat) (h : n < 16) : hexVal (upperhex n) = some n := by
  interval_cases n <;> decide

theorem shouldEscape_false (c : Nat) (h : ¬ shouldEscape c = true) :
    (97 ≤ c ∧ c ≤ 122) ∨ (65 ≤ c ∧ c ≤ 90) ∨ (48 ≤ c ∧ c ≤ 57) ∨ c = 45 ∨ c = 95 ∨ c = 46
      ∨ c = 126 := by
  simp [shouldEscape] at h
  omega

/-- Every byte `escapeQuery` writes is ASCII and none of `&`, `;`, `=`. -/
theorem escapeQuery_bytes : ∀ (bs : Bytes), (∀ x ∈ bs, x < 256) →
    ∀ y ∈ escapeQuery bs, y < 128 ∧ y ≠ 38 ∧ y ≠ 59 ∧ y ≠ 61
  | [], _ => by simp [escapeQuery]
  | c :: cs, h => by
    have hc := h c (by simp)
    have ih := escapeQuery_bytes cs (fun x hx => h x (by simp [hx]))
    have u1 := upperhex_range (c / 16) (by omega)
    have u2 := upperhex_range (c % 16) (by omega)
    intro y hy
    unfold escapeQuery at hy
    by_cases hs : shouldEscape c = true
    · rw [if_pos hs] at hy
      by_cases h32 : c = 32
      · rw [if_pos h32] at hy
        simp only [List.mem_cons] at hy
        rcases hy with e | e
        · omega
        · exact ih y e
      · rw [if_neg h32] at hy
        simp only [List.mem_cons] at hy
        rcases hy with e | e | e | e
        · omega
        · omega
        · omega
        · exact ih y e
    · rw [if_neg hs] at hy
      have hr := shouldEscape_false c hs
      simp only [List.mem_cons] at hy
      rcases hy with e | e
      · omega
      · exact ih y e

/-- Go `QueryUnescape` undoes `QueryEscape`. -/
theorem unescapeQuery_escapeQuery : ∀ (bs : Bytes), (∀ x ∈ bs, x < 256) →
    unescapeQuery (escapeQuery bs) = some bs
  | [], _ => by simp [escapeQuery, unescapeQuery]
  | c :: cs, h => by
    have hc := h c (by simp)
    have ih := unescapeQuery_escapeQuery cs (fun x hx => h x (by simp [hx]))
    have x1 := hexVal_upperhex (c / 16) (by omega)
    have x2 := hexVal_upperhex (c % 16) (by omega)
    unfold escapeQuery
    by_cases hs : shouldEscape c = true
    · rw [if_pos hs]
      by_cases h32 : c = 32
      · rw [if_pos h32]
        rw [unescapeQuery.eq_def]
        simp [ih, h32]
      · rw [if_neg h32]
        rw [unescapeQuery.eq_def]
        simp [x1, x2, ih]
        omega
    · rw [if_neg hs]
      have hr := shouldEscape_false c hs
      have n1 : ¬ c = 37 := by omega
      have n2 : ¬ c = 43 := by omega
      rw [unescapeQuery.eq_def]
      simp [n1, n2, ih]

theorem stringBytes_QueryEscape (s : String) :
    stringBytes (QueryEscape s) = escapeQuery (stringBytes s) :=
  stringBytes_ofCodes _ (fun y hy => (escapeQuery_bytes _ (stringBytes_lt s) y hy).1)

/-- A piece without `&` in front of a separator is the first piece. -/
theorem splitAmp_append : ∀ (l t : Bytes), (∀ y ∈ l, y ≠ 38) →
    splitAmp (l ++ 38 :: t) = l :: splitAmp t
  | [], t, _ => by simp [splitAmp]
  | c :: cs, t, h => by
    have hc := h c (by simp)
    have ih := splitAmp_append cs t (fun y hy => h y (by simp [hy]))
    simp [splitAmp, hc, ih]

/-- The form body `formhash=<escaped token>&signsubmit=true` reads back, by
`url.ParseQuery`, as exactly the two fields `formhash`, with the token as its
value, and `signsubmit`, with value `true`. -/
theorem ParseQuery_checkInBody (f : String) :
    ParseQuery (stringBytes ("formhash=" ++ QueryEscape f ++ "&signsubmit=true"))
      = ([(stringBytes "formhash", stringBytes f), (stringBytes "signsubmit", stringBytes "true")],
          false) := by
  have hE := escapeQuery_bytes _ (stringBytes_lt f)
  have h1 : stringBytes "formhash=" = [102, 111, 114, 109, 104, 97, 115, 104, 61] := by decide
  have h2 : stringBytes "&signsubmit=true"
      = 38 :: [115, 105, 103, 110, 115, 117, 98, 109, 105, 116, 61, 116, 114, 117, 101] := by
    decide
  have h3 : parsePieces (splitAmp [115, 105, 103, 110, 115, 117, 98, 109, 105, 116, 61, 116, 114, 117, 101])
      = ([(stringBytes "signsubmit", stringBytes "true")], false) := by decide
  have h4 : stringBytes "formhash" = [102, 111, 114, 109, 104, 97, 115, 104] := by decide
  have hk : unescapeQuery [102, 111, 114, 109, 104, 97, 115, 104]
      = some [102, 111, 114, 109, 104, 97, 115, 104] := by decide
  have hamp : ∀ y ∈ [102, 111, 114, 109, 104, 97, 115, 104, 61] ++ escapeQuery (stringBytes f),
      y ≠ 38 := by
    intro y hy
    rcases List.mem_append.1 hy with h | h
    · simp at h
      omega
    · exact (hE y h).2.1
  have hsemi : ([102, 111, 114, 109, 104, 97, 115, 104, 61] ++ escapeQuery (stringBytes f)).contains 59
      = false := by
    rw [Bool.eq_false_iff]
    intro hc
    simp at hc
    exact (hE 59 hc).2.2.1 rfl
  unfold ParseQuery
  rw [stringBytes_append, stringBytes_append, stringBytes_QueryEscape, h1, h2,
    splitAmp_append _ _ hamp, parsePieces, hsemi, h3, h4]
  simp [cutEq, hk, unescapeQuery_escapeQuery _ (stringBytes_lt f)]

/-! ## Base64 texts with a corrupt tail -/

theorem skipNewlines_append_nil : ∀ (a r : Bytes), skipNewlines a = [] →
    skipNewlines (a ++ r) = skipNewlines r
  | [], r, _ => rfl
  | c :: cs, r, h => by
    by_cases hc : c = 10 ∨ c = 13
    · simp only [skipNewlines, hc, if_true] at h
      simp only [List.cons_append, skipNewlines, hc, if_true]
      exact skipNewlines_append_nil cs r h
    · simp [skipNewlines, hc] at h

theorem skipNewlines_append_cons : ∀ (a r : Bytes) (x : Nat) (t : Bytes),
    skipNewlines a = x :: t → skipNewlines (a ++ r) = x :: (t ++ r)
  | [], r, x, t, h => by simp [skipNewlines] at h
  | c :: cs, r, x, t, h => by
    by_cases hc : c = 10 ∨ c = 13
    · simp only [skipNewlines, hc, if_true] at h
      simp only [List.cons_append, skipNewlines, hc, if_true]
      exact skipNewlines_append_cons cs r x t h
    · simp only [skipNewlines, hc, if_false, List.cons.injEq] at h
      simp only [List.cons_append, skipNewlines, hc, if_false, List.append_eq]
      rw [h.1, h.2]

theorem decodeMap_newline (c : Nat) (h : c = 10 ∨ c = 13) : decodeMap c = 0xff := by
  rcases h with h | h <;> subst h <;> decide

/-- A text that is corrupt from its first quantum holds more than line ends. -/
theorem corrupt_skipNewlines : ∀ (r : Bytes), readQuantum r [] = QuantumRead.corrupt →
    skipNewlines r ≠ []
  | [], h => by simp [readQuantum] at h
  | c :: cs, h => by
    by_cases hc : c = 10 ∨ c = 13
    · have hm := decodeMap_newline c hc
      simp only [readQuantum, hm, ne_eq, not_true_eq_false, if_false, hc, if_true] at h
      simp only [skipNewlines, hc, if_true]
      exact corrupt_skipNewlines cs h
    · simp [skipNewlines, hc]

theorem readQuantum_nothing_nil : ∀ (p : Bytes) (dbuf : List Nat),
    readQuantum p dbuf = QuantumRead.nothing → dbuf = []
  | [], dbuf, h => by
    by_cases hd : dbuf.length = 0
    · exact List.length_eq_zero.1 hd
    · simp [readQuantum, hd] at h
  | c :: cs, dbuf, h => by
    simp only [readQuantum] at h
    split_ifs at h with h1 h2 h3 h4 h5 h6
    · have := readQuantum_nothing_nil cs _ h
      simp at this
    · exact readQuantum_nothing_nil cs _ h
    · revert h
      split
      · intro h; cases h
      · split_ifs <;> intro h <;> cases h

/-- Line ends before a text do not change how its first quantum reads. -/
theorem readQuantum_append_nothing (r : Bytes) : ∀ (p : Bytes),
    readQuantum p [] = QuantumRead.nothing → readQuantum (p ++ r) [] = readQuantum r []
  | [], _ => rfl
  | c :: cs, h => by
    simp only [readQuantum] at h
    simp only [List.cons_append, readQuantum, List.append_eq]
    split_ifs at h ⊢ with h1 h2 h3 h4 h5 h6
    · have := readQuantum_nothing_nil cs _ h
      simp at this
    · exact readQuantum_append_nothing r cs h
    · simp at h5

/-- What `readQuantum` does on `p ++ r` when it reads a quantum without error
from `p`: either the quantum has four digits and the rest of `p` is still to
read, or it is padded and ends `p`, and then `r` is "trailing garbage". -/
theorem readQuantum_append_digits (r : Bytes) : ∀ (p : Bytes) (dbuf d : List Nat) (rest : Bytes),
    readQuantum p dbuf = QuantumRead.digits d rest false →
      (readQuantum (p ++ r) dbuf = QuantumRead.digits d (rest ++ r) false
        ∧ rest.length < p.length)
      ∨ (rest = [] ∧ readQuantum (p ++ r) dbuf
          = QuantumRead.digits d (skipNewlines r) (decide (skipNewlines r ≠ [])))
  | [], dbuf, d, rest, h => by
    simp only [readQuantum] at h
    split_ifs at h
  | c :: cs, dbuf, d, rest, h => by
    have ih := readQuantum_append_digits r cs
    simp only [readQuantum] at h
    simp only [List.cons_append, readQuantum, List.append_eq]
    split_ifs at h ⊢ with h1 h2 h3 h4 h5 h6
    · simp only [QuantumRead.digits.injEq] at h
      left
      refine ⟨by rw [h.1, h.2.1], ?_⟩
      rw [← h.2.1]
      simp
    · rcases ih _ d rest h with hh | hh
      · left
        exact ⟨hh.1, by have := hh.2; simp only [List.length_cons]; omega⟩
      · right
        exact hh
    · rcases ih _ d rest h with hh | hh
      · left
        exact ⟨hh.1, by have := hh.2; simp only [List.length_cons]; omega⟩
      · right
        exact hh
    · revert h
      split
      · intro h; cases h
      · rename_i x rest2 hs
        split_ifs with hx
        · intro h; cases h
        · intro h
          simp only [QuantumRead.digits.injEq, decide_eq_false_iff_not, ne_eq,
            not_not] at h
          right
          obtain ⟨hd, hrest, hnil⟩ := h
          subst hd
          rw [skipNewlines_append_cons _ r _ _ hs]
          simp only [hx, if_false]
          simp only [skipNewlines_append_nil _ r hnil]
          exact ⟨hrest ▸ hnil, trivial⟩
    · simp only [QuantumRead.digits.injEq, decide_eq_false_iff_not, ne_eq, not_not] at h
      right
      obtain ⟨hd, hrest, hnil⟩ := h
      subst hd
      simp only [skipNewlines_append_nil _ r hnil]
      exact ⟨hrest ▸ hnil, trivial⟩

theorem decodeLoop_nil (fuel : Nat) : decodeLoop fuel [] = ([], false) := by
  cases fuel <;> rfl

/-- The bytes decoded from a valid text are still returned, now with an error,
when a text that is corrupt from its first quantum follows it. -/
theorem decodeLoop_append_corrupt (r : Bytes) (hr : readQuantum r [] = QuantumRead.corrupt) :
    ∀ (fuel1 : Nat) (p bs : Bytes) (fuel2 : Nat), p.length < fuel1 → (p ++ r).length < fuel2 →
      decodeLoop fuel1 p = (bs, false) → decodeLoop fuel2 (p ++ r) = (bs, true) := by
  have hrs := corrupt_skipNewlines r hr
  have hrne : r ≠ [] := by
    intro h
    subst h
    simp [skipNewlines] at hrs
  intro fuel1
  induction fuel1 with
  | zero => intro p bs fuel2 h; omega
  | succ f1 ih =>
    intro p bs fuel2 h1 h2 hp
    cases fuel2 with
    | zero => omega
    | succ f2 =>
      cases p with
      | nil =>
        simp only [decodeLoop, Prod.mk.injEq] at hp
        rw [← hp.1]
        cases hrc : r with
        | nil => exact absurd hrc hrne
        | cons x xs =>
          rw [hrc] at hr
          simp [decodeLoop, decodeQuantum, hr]
      | cons c cs =>
        simp only [decodeLoop, decodeQuantum] at hp
        simp only [List.cons_append, decodeLoop, decodeQuantum]
        rw [← List.cons_append]
        cases hq : readQuantum (c :: cs) [] with
        | nothing =>
          rw [hq] at hp
          simp only [decodeLoop_nil, Prod.mk.injEq, Bool.false_eq_true, if_false,
            List.append_nil] at hp
          rw [readQuantum_append_nothing r _ hq, hr, ← hp.1]
          rfl
        | corrupt =>
          rw [hq] at hp
          simp at hp
        | digits d rest err =>
          rw [hq] at hp
          cases err with
          | true => simp at hp
          | false =>
            simp only [Bool.false_eq_true, if_false, Prod.mk.injEq] at hp
            rcases readQuantum_append_digits r _ _ _ _ hq with hh | hh
            · rw [hh.1]
              have hl := hh.2
              simp only [List.length_cons, List.length_append] at h1 h2 hl
              have := ih rest (decodeLoop f1 rest).1 f2 (by omega)
                (by simp only [List.length_append]; omega)
                (Prod.ext rfl hp.2)
              simp only [Bool.false_eq_true, if_false]
              rw [this, ← hp.1]
            · rw [hh.2]
              have hd : decide (skipNewlines r ≠ []) = true := by simpa using hrs
              rw [hd]
              simp only [if_true]
              rw [← hp.1, hh.1, decodeLoop_nil, List.append_nil]

/-! ## The sign-in of one account -/

/-- The loop of `CreateReq` over the cookies appends them in order. -/
theorem foldl_AddCookie (cs : List Cookie) :
    ∀ r : Request, cs.foldl Request.AddCookie r = { r with Cookies := r.Cookies ++ cs } := by
  induction cs with
  | nil => intro r; simp
  | cons c cs ih => intro r; simp [ih, Request.AddCookie]

theorem CreateReq_login {σ : Type} (env : Env σ) (a : AccountInfo)
    (h : env.urlParse loginUrl = none) :
    CreateReq env loginUrl (loginData a) [] = .ok (loginRequest a) := by
  simp [CreateReq, h, loginRequest]

theorem CreateReq_checkIn {σ : Type} (env : Env σ) (body : Bytes) (cs : List Cookie)
    (h : env.urlParse checkInUrl = none) :
    CreateReq env checkInUrl (checkInData (parseLoginRespSuccess body).Formhash) cs
      = .ok (checkInRequest body cs) := by
  simp [CreateReq, h, checkInRequest, foldl_AddCookie]

/-- The body of the check-in request is `formhash=<token>&signsubmit=true`, the
token query-escaped. -/
theorem Encode_checkInData (f : String) :
    Values.Encode (checkInData f) = "formhash=" ++ QueryEscape f ++ "&signsubmit=true" := by
  have h1 : QueryEscape "formhash" = "formhash" := by decide
  have h2 : QueryEscape "signsubmit" = "signsubmit" := by decide
  have h3 : QueryEscape "true" = "true" := by decide
  have h4 : stringLt "formhash" "signsubmit" = true := by decide
  simp [Values.Encode, checkInData, sortByKey, insertByKey, h1, h2, h3, h4, String.intercalate,
    String.intercalate.go]
  rw [String.append_assoc]
  rfl

/-- A call of `client.Do` that yields no response makes `POSTRequest` panic,
whatever the error says. -/
theorem POSTRequest_no_response {σ : Type} (env : Env σ) (req : Request) (tr : Transport)
    (w : World σ) (h : (env.clientDo w.net tr req).1.resp = none) :
    (POSTRequest env req tr w).1 = .panicked := by
  simp [POSTRequest, h]

/-- C1: for every account, when both requests can be built and are answered,
the login response body parses to status "success" and the check-in response
body parses to status "success" and message "success", `AccountSignIn` returns
the nil error. -/
theorem accountSignIn_success {σ : Type} (env : Env σ) (a : AccountInfo) (tr : Transport)
    (w : World σ) (lr cr : Response)
    (h1 : env.urlParse loginUrl = none) (h2 : env.urlParse checkInUrl = none)
    (hl : (loginExchange env a tr w).1.resp = some lr)
    (hc : (checkInExchange env a tr w lr).1.resp = some cr)
    (hls : (parseLoginResp lr.Body).Status = "success")
    (hcs : (parseSignInResp cr.Body).Status = "success")
    (hcm : (parseSignInResp cr.Body).Message = "success") :
    (AccountSignIn env a tr w).1 = .returned none := by
  unfold loginExchange at hl
  unfold checkInExchange loginExchange at hc
  simp only [AccountSignIn, CreateReq_login env a h1, POSTRequest, World.logf, hl]
  simp only [CreateReq_checkIn env _ _ h2, hc, hls, hcs, hcm]
  simp

/-- Witness of C1: the mocked endpoints of the specification, login
`{"status":"success","formhash":"F","cookie":{"auth":"A"}}` and check-in
`{"status":"success","message":"success"}`. -/
theorem accountSignIn_success_witness :
    (AccountSignIn (mockEnv [] okLogin okCheckIn) someAccount ⟨none⟩ World.start).1
      = .returned none :=
  accountSignIn_success (mockEnv [] okLogin okCheckIn) someAccount ⟨none⟩ World.start
    ⟨stringBytes "\x7b\"status\":\"success\",\"formhash\":\"F\",\"cookie\":\x7b\"auth\":\"A\"\x7d\x7d",
      [⟨"auth", "A"⟩]⟩
    ⟨stringBytes "\x7b\"status\":\"success\",\"message\":\"success\"\x7d", []⟩
    rfl rfl (by decide) (by decide) (by decide) (by decide) (by decide)

/-- C2: for every account and every check-in response whose body parses to
status "fail", `AccountSignIn` returns a non-nil error whose text is
`用户 <user name> 签到失败: <reason>` (user name and reason in yellow), the reason
being the fixed text "今日已签到~" when the message is "alreadysign" and the
message itself otherwise. -/
theorem accountSignIn_checkIn_fail {σ : Type} (env : Env σ) (a : AccountInfo) (tr : Transport)
    (w : World σ) (lr cr : Response)
    (h1 : env.urlParse loginUrl = none) (h2 : env.urlParse checkInUrl = none)
    (hl : (loginExchange env a tr w).1.resp = some lr)
    (hc : (checkInExchange env a tr w lr).1.resp = some cr)
    (hcs : (parseSignInResp cr.Body).Status = "fail") :
    (AccountSignIn env a tr w).1 = .returned (some
      ("用户 " ++ "\x1b[33m" ++ a.Username ++ "\x1b[0m" ++ " 签到失败: " ++ "\x1b[33m"
        ++ (if (parseSignInResp cr.Body).Message = "alreadysign" then "今日已签到~"
            else (parseSignInResp cr.Body).Message)
        ++ "\x1b[0m")) := by
  unfold loginExchange at hl
  unfold checkInExchange loginExchange at hc
  simp only [AccountSignIn, CreateReq_login env a h1, POSTRequest, World.logf, hl]
  simp only [CreateReq_checkIn env _ _ h2, hc, hcs]
  by_cases hm : (parseSignInResp cr.Body).Message = "alreadysign" <;>
    simp [hm, checkInFailure, Yellow, Reset]

/-- Witness of C2: after a successful login, the check-in response
`{"status":"fail","message":"other"}` gives the error text that carries
`other`, and `{"status":"fail","message":"alreadysign"}` the one that carries
the fixed text. -/
theorem accountSignIn_checkIn_fail_witness :
    (AccountSignIn (mockEnv [] okLogin otherCheckIn) someAccount ⟨none⟩ World.start).1
        = .returned (some "用户 \x1b[33mu\x1b[0m 签到失败: \x1b[33mother\x1b[0m")
    ∧ (AccountSignIn (mockEnv [] okLogin doneCheckIn) someAccount ⟨none⟩ World.start).1
        = .returned (some "用户 \x1b[33mu\x1b[0m 签到失败: \x1b[33m今日已签到~\x1b[0m") :=
  ⟨(accountSignIn_checkIn_fail (mockEnv [] okLogin otherCheckIn) someAccount ⟨none⟩ World.start
      ⟨stringBytes "\x7b\"status\":\"success\",\"formhash\":\"F\",\"cookie\":\x7b\"auth\":\"A\"\x7d\x7d",
        [⟨"auth", "A"⟩]⟩
      ⟨stringBytes "\x7b\"status\":\"fail\",\"message\":\"other\"\x7d", []⟩
      rfl rfl (by decide) (by decide) (by decide)).trans (by decide),
    (accountSignIn_checkIn_fail (mockEnv [] okLogin doneCheckIn) someAccount ⟨none⟩ World.start
      ⟨stringBytes "\x7b\"status\":\"success\",\"formhash\":\"F\",\"cookie\":\x7b\"auth\":\"A\"\x7d\x7d",
        [⟨"auth", "A"⟩]⟩
      ⟨stringBytes "\x7b\"status\":\"fail\",\"message\":\"alreadysign\"\x7d", []⟩
      rfl rfl (by decide) (by decide) (by decide)).trans (by decide)⟩

/-- C10: for every account and every login response, the requests
`AccountSignIn` hands to the client are the login request, a form-encoded POST
without cookies, and then the check-in request, a form-encoded POST whose
cookies are those of the login response in the same order and whose body reads
back, by `url.ParseQuery`, as exactly the two fields `formhash`, with the
formhash parsed from the login body as value, and `signsubmit`, with value
`true`. -/
theorem accountSignIn_requests {σ : Type} (env : Env σ) (a : AccountInfo) (tr : Transport)
    (w : World σ) (lr : Response)
    (h1 : env.urlParse loginUrl = none) (h2 : env.urlParse checkInUrl = none)
    (hl : (loginExchange env a tr w).1.resp = some lr) :
    (AccountSignIn env a tr w).2.sent = w.sent ++
      [ { Method := "POST", URL := loginUrl, ContentType := "application/x-www-form-urlencoded",
          Body := Values.Encode (loginData a), Cookies := [] },
        { Method := "POST", URL := checkInUrl, ContentType := "application/x-www-form-urlencoded",
          Body := "formhash=" ++ QueryEscape (parseLoginRespSuccess lr.Body).Formhash
            ++ "&signsubmit=true",
          Cookies := lr.Cookies } ]
    ∧ ParseQuery (stringBytes ("formhash=" ++ QueryEscape (parseLoginRespSuccess lr.Body).Formhash
          ++ "&signsubmit=true"))
        = ([(stringBytes "formhash", stringBytes (parseLoginRespSuccess lr.Body).Formhash),
            (stringBytes "signsubmit", stringBytes "true")], false) := by
  refine ⟨?_, ParseQuery_checkInBody _⟩
  unfold loginExchange at hl
  simp only [AccountSignIn, CreateReq_login env a h1, POSTRequest, World.logf, hl]
  simp only [CreateReq_checkIn env _ _ h2]
  rw [← Encode_checkInData]
  cases hc : (env.clientDo (env.clientDo w.net tr (loginRequest a)).2 tr
      (checkInRequest lr.Body lr.Cookies)).1.resp with
  | none => simp [loginRequest, checkInRequest]
  | some cr =>
    simp only []
    split_ifs <;> simp [loginRequest, checkInRequest]

/-- Witness of C10: after a login response with the token `x&signsubmit=false`
and the cookie `auth=A`, the check-in request carries that cookie and the body
`formhash=x%26signsubmit%3Dfalse&signsubmit=true`, which reads back as the
field `formhash` with the whole token as value and the field `signsubmit` with
value `true`. -/
theorem accountSignIn_requests_witness :
    (AccountSignIn (mockEnv [] trickyLogin okCheckIn) someAccount ⟨none⟩ World.start).2.sent =
      [ { Method := "POST", URL := loginUrl, ContentType := "application/x-www-form-urlencoded",
          Body := "action=login&answer=x&password=p&questionid=1&username=u", Cookies := [] },
        { Method := "POST", URL := checkInUrl, ContentType := "application/x-www-form-urlencoded",
          Body := "formhash=x%26signsubmit%3Dfalse&signsubmit=true",
          Cookies := [⟨"auth", "A"⟩] } ]
    ∧ ParseQuery (stringBytes "formhash=x%26signsubmit%3Dfalse&signsubmit=true")
        = ([(stringBytes "formhash", stringBytes "x&signsubmit=false"),
            (stringBytes "signsubmit", stringBytes "true")], false) := by
  have h := accountSignIn_requests (mockEnv [] trickyLogin okCheckIn) someAccount ⟨none⟩
    World.start
    ⟨stringBytes "\x7b\"status\":\"success\",\"formhash\":\"x&signsubmit=false\"\x7d",
      [⟨"auth", "A"⟩]⟩ rfl rfl (by decide)
  exact ⟨h.1.trans (by decide), by decide⟩

/-! ## Where the code leaves the specification -/

/-- C3 (the code at the failing input): after the login response
`{"status":"fail","message":"x"}` the workflow does not stop; the check-in
request is sent all the same, and the log reports a successful login. -/
theorem login_failure_still_checks_in :
    ((AccountSignIn (mockEnv [] failLogin okCheckIn) someAccount ⟨none⟩ World.start).2.sent.map
        (fun r => r.URL) = [loginUrl, checkInUrl])
    ∧ (Logger.Success, "用户 " ++ Green ++ "u" ++ Reset ++ " 登录成功: " ++ Green ++ "登录成功~" ++ Reset)
        ∈ (AccountSignIn (mockEnv [] failLogin okCheckIn) someAccount ⟨none⟩ World.start).2.log := by
  decide

/-- C4 (the code at the failing input): after the login response
`{"status":"fail","message":"x"}` and the check-in response
`{"status":"fail","message":"alreadysign"}` the error returned is the check-in
failure, not the login failure with reason `x`. -/
theorem login_failure_error_overwritten :
    (AccountSignIn (mockEnv [] failLogin doneCheckIn) someAccount ⟨none⟩ World.start).1
        = .returned (some (checkInFailure "u" Yellow "今日已签到~"))
    ∧ checkInFailure "u" Yellow "今日已签到~" ≠ loginFailure "u" "x" := by
  decide

/-- The loop of `RunTask` with its unbuffered channel returns only when no
account failed: the channel is still empty and the last error is nil. -/
theorem runAccounts_unbuffered {σ : Type} (env : Env σ) (tr : Transport) :
    ∀ (accounts : List Base64) (w : World σ) (ch : Chan) (err : Option String) (w1 : World σ),
      runAccounts env tr accounts Chan.make none w = (.returned (ch, err), w1) →
        ch = Chan.make ∧ err = none := by
  intro accounts
  induction accounts with
  | nil =>
    intro w ch err w1 h
    simp only [runAccounts, Prod.mk.injEq, Result.returned.injEq] at h
    exact ⟨h.1.1.symm, h.1.2.symm⟩
  | cons b rest ih =>
    intro w ch err w1 h
    simp only [runAccounts] at h
    split at h
    · simp at h
    · simp at h
    · exact ih _ _ _ _ h
    · simp [Chan.send, Chan.make] at h

/-- C5 (the code at the failing input): with two accounts of which the first
gets the answer "alreadysign", `RunTask` blocks forever on the send to its
unbuffered channel: it returns no error, and the second account is never
processed (two requests were sent, both for account `u`). -/
theorem runTask_blocks_on_first_failure :
    (RunTask (mockEnv twoAccounts okLogin doneCheckIn) "config.json" World.start).1 = .blocked
    ∧ (RunTask (mockEnv twoAccounts okLogin doneCheckIn) "config.json" World.start).2.sent.map
        (fun r => r.Body)
      = ["action=login&answer=x&password=p&questionid=1&username=u", "formhash=F&signsubmit=true"] := by
  decide

/-- C6 (the code at the failing input): when `client.Do` fails in transport,
at the login step or at the check-in step, `AccountSignIn` panics instead of
returning an error, and so does `RunTask`, which never reaches the second
account. -/
theorem transport_failure_panics :
    (AccountSignIn (mockEnv [] (transportFailure "timeout") okCheckIn) someAccount ⟨none⟩
        World.start).1 = .panicked
    ∧ (AccountSignIn (mockEnv [] okLogin (transportFailure "timeout")) someAccount ⟨none⟩
        World.start).1 = .panicked
    ∧ (RunTask (mockEnv twoAccounts (transportFailure "timeout") okCheckIn) "config.json"
        World.start).1 = .panicked
    ∧ (RunTask (mockEnv twoAccounts (transportFailure "timeout") okCheckIn) "config.json"
        World.start).2.sent.length = 1 := by
  decide

/-- After a login that succeeded, a check-in response that is neither the
success pair nor a failure makes `AccountSignIn` return the nil error. -/
theorem accountSignIn_fallthrough {σ : Type} (env : Env σ) (a : AccountInfo) (tr : Transport)
    (w : World σ) (lr cr : Response)
    (h1 : env.urlParse loginUrl = none) (h2 : env.urlParse checkInUrl = none)
    (hl : (loginExchange env a tr w).1.resp = some lr)
    (hc : (checkInExchange env a tr w lr).1.resp = some cr)
    (hls : (parseLoginResp lr.Body).Status = "success")
    (hpair : ¬ ((parseSignInResp cr.Body).Status = "success"
      ∧ (parseSignInResp cr.Body).Message = "success"))
    (hfail : (parseSignInResp cr.Body).Status ≠ "fail") :
    (AccountSignIn env a tr w).1 = .returned none := by
  unfold loginExchange at hl
  unfold checkInExchange loginExchange at hc
  simp only [AccountSignIn, CreateReq_login env a h1, POSTRequest, World.logf, hl]
  simp only [CreateReq_checkIn env _ _ h2, hc, hls]
  simp [hpair, hfail]

/-- C7 (the code at the failing input): after a successful login, the check-in
responses `{"status":"success","message":"other"}` and the empty body, which
are neither the success pair nor a failure, make `AccountSignIn` return the nil
error. -/
theorem unrecognized_checkIn_returns_nil :
    (AccountSignIn (mockEnv [] okLogin oddCheckIn) someAccount ⟨none⟩ World.start).1
        = .returned none
    ∧ (AccountSignIn (mockEnv [] okLogin (delivered [] [])) someAccount ⟨none⟩ World.start).1
        = .returned none := by
  decide

/-! ## The account decoder -/

/-- C8: for every four strings `u`, `p`, `q`, `a`, decoding the standard base64
encoding of the JSON object `{"username":u,"password":p,"questionId":q,"answer":a}`
with `ToAccountInfo` yields the account with exactly these four field values. -/
theorem toAccountInfo_roundtrip (u p q a : String) :
    Base64.ToAccountInfo (EncodeToString (accountJSON u p q a)) = ⟨u, p, q, a⟩ := by
  unfold Base64.ToAccountInfo Base64.Decode DecodeString
  rw [stringBytes_EncodeToString,
    decodeLoop_encodeBytes _ (accountJSON_lt u p q a) _ (Nat.lt_succ_self _)]
  rw [unmarshal_accountJSON]

/-- C9, as stated, fails: `QUJD!` is not valid base64, yet `Decode` returns the
three bytes `ABC` decoded before the corrupt place; the base64 text of
`{"username":"a"}` followed by `!` is not valid base64, yet `ToAccountInfo`
returns an account with user name `a`; and the base64 text of
`{"username":"a","password":5}`, which is not JSON of the account shape
(`json.Unmarshal` returns an error), gives that same account. -/
theorem decode_malformed_counterexample :
    ((DecodeString "QUJD!").2 = true ∧ Base64.Decode "QUJD!" = [65, 66, 67])
    ∧ ((DecodeString "eyJ1c2VybmFtZSI6ImEifQ==!").2 = true
        ∧ Base64.ToAccountInfo "eyJ1c2VybmFtZSI6ImEifQ==!" = ⟨"a", "", "", ""⟩)
    ∧ ((unmarshalStruct AccountInfo.names AccountInfo.setField
          (Base64.Decode "eyJ1c2VybmFtZSI6ImEiLCJwYXNzd29yZCI6NX0=") AccountInfo.zero).2 = true
        ∧ Base64.ToAccountInfo "eyJ1c2VybmFtZSI6ImEiLCJwYXNzd29yZCI6NX0=" = ⟨"a", "", "", ""⟩) := by
  decide

/-- A JSON object none of whose members stores a non-empty string into an
account field leaves the zero-valued account as it is. -/
theorem storeMembers_zero (kvs : List (String × JValue))
    (h : ∀ kv ∈ kvs, ∀ v, kv.2 = JValue.string v →
      (matchField AccountInfo.names kv.1).isSome = true → v = "") :
    (storeMembers AccountInfo.names AccountInfo.setField kvs AccountInfo.zero).1
      = AccountInfo.zero := by
  unfold storeMembers
  suffices hs : ∀ (l : List (String × JValue)) (b : Bool),
      (∀ kv ∈ l, ∀ v, kv.2 = JValue.string v →
        (matchField AccountInfo.names kv.1).isSome = true → v = "") →
      (l.foldl (fun acc kv =>
        match matchField AccountInfo.names kv.1 with
        | some i => ((AccountInfo.setField i kv.2 acc.1).1,
            acc.2 || (AccountInfo.setField i kv.2 acc.1).2)
        | none => acc) (AccountInfo.zero, b)).1 = AccountInfo.zero from hs kvs false h
  intro l
  induction l with
  | nil => intro b _; rfl
  | cons kv rest ih =>
    intro b hl
    have hkv := hl kv (by simp)
    have hrest := fun x hx => hl x (List.mem_cons_of_mem _ hx)
    simp only [List.foldl_cons]
    cases hm : matchField AccountInfo.names kv.1 with
    | none => exact ih b hrest
    | some i =>
      have hstore : (storeString kv.2 "").1 = "" := by
        cases hv : kv.2 with
        | string v => exact hkv v hv (by rw [hm]; rfl)
        | _ => rfl
      have hz : (AccountInfo.setField i kv.2 AccountInfo.zero).1 = AccountInfo.zero := by
        simp only [AccountInfo.setField, AccountInfo.zero, hstore]
        split_ifs <;> rfl
      simp only [hz]
      exact ih _ hrest

/-- C9, amended: `Decode` and `ToAccountInfo` drop the errors of the library
and keep what it hands back.  (1) When a text `p` that is valid base64 for the
bytes `bs` is followed by a text that is corrupt from its first quantum,
`DecodeString` reports an error and `Decode` returns `bs`, the bytes decoded
before the corrupt place.  (2) For the base64 text of the JSON object of an
account followed by such a text, `ToAccountInfo` returns that account.
(3) `ToAccountInfo` returns the zero-valued account unless the bytes `Decode`
returns are a valid JSON text whose top-level value is an object with a member
that stores a non-empty string into one of the four fields. -/
theorem decode_malformed_amended :
    (∀ (p t : Base64) (bs : Bytes), DecodeString p = (bs, false) →
        readQuantum (stringBytes t) [] = QuantumRead.corrupt →
        DecodeString (p ++ t) = (bs, true) ∧ Base64.Decode (p ++ t) = bs)
    ∧ (∀ (u p q a : String) (t : Base64),
        readQuantum (stringBytes t) [] = QuantumRead.corrupt →
        Base64.ToAccountInfo (EncodeToString (accountJSON u p q a) ++ t) = ⟨u, p, q, a⟩)
    ∧ (∀ s : Base64, Base64.ToAccountInfo s ≠ AccountInfo.zero →
        checkValid (Base64.Decode s) = true
        ∧ ∃ kvs rest, parseValue ((Base64.Decode s).length + 1) (Base64.Decode s)
              = some (JValue.object kvs, rest)
            ∧ ∃ kv ∈ kvs, ∃ v, kv.2 = JValue.string v ∧ v ≠ ""
                ∧ (matchField AccountInfo.names kv.1).isSome = true) := by
  have part1 : ∀ (p t : Base64) (bs : Bytes), DecodeString p = (bs, false) →
      readQuantum (stringBytes t) [] = QuantumRead.corrupt →
      DecodeString (p ++ t) = (bs, true) := by
    intro p t bs hp ht
    unfold DecodeString at hp ⊢
    rw [stringBytes_append]
    exact decodeLoop_append_corrupt _ ht _ _ _ _ (Nat.lt_succ_self _)
      (by rw [← stringBytes_append]; exact Nat.lt_succ_self _) hp
  refine ⟨fun p t bs hp ht => ⟨part1 p t bs hp ht, ?_⟩, ?_, ?_⟩
  · unfold Base64.Decode
    rw [part1 p t bs hp ht]
  · intro u p q a t ht
    have hd : DecodeString (EncodeToString (accountJSON u p q a)) = (accountJSON u p q a, false) := by
      unfold DecodeString
      rw [stringBytes_EncodeToString]
      exact decodeLoop_encodeBytes _ (accountJSON_lt u p q a) _ (Nat.lt_succ_self _)
    unfold Base64.ToAccountInfo Base64.Decode
    rw [part1 _ t _ hd ht, unmarshal_accountJSON]
  · intro s hs
    unfold Base64.ToAccountInfo unmarshalStruct at hs
    by_cases hv : checkValid (Base64.Decode s) = true
    · refine ⟨hv, ?_⟩
      rw [if_pos hv] at hs
      cases hpv : parseValue ((Base64.Decode s).length + 1) (Base64.Decode s) with
      | none => rw [hpv] at hs; exact absurd rfl hs
      | some r =>
        obtain ⟨v, rest⟩ := r
        rw [hpv] at hs
        cases v with
        | object kvs =>
          refine ⟨kvs, rest, rfl, ?_⟩
          by_contra hne
          apply hs
          apply storeMembers_zero
          intro kv hkv v hkv2 hmf
          by_contra hv2
          exact hne ⟨kv, hkv, v, hkv2, hv2, hmf⟩
        | _ => exact absurd rfl hs
    · rw [if_neg hv] at hs
      exact absurd rfl hs

/-- Witness of C9, amended: `QUJD` is valid base64 for `ABC` and `!` is corrupt,
so `QUJD!` decodes to `ABC`; `!QUJD` is corrupt from its first byte and decodes
to no bytes; the base64 text of the account `u`, `p`, `1`, `x` followed by `!`
gives that account; and `eyJ1c2VybmFtZSI6ImEifQ==!`, which gives an account
that is not the zero value, holds a JSON object with a string member. -/
theorem decode_malformed_amended_witness :
    (DecodeString "QUJD!" = ([65, 66, 67], true) ∧ Base64.Decode "QUJD!" = [65, 66, 67])
    ∧ (DecodeString "!QUJD" = ([], true) ∧ Base64.Decode "!QUJD" = [])
    ∧ Base64.ToAccountInfo (EncodeToString (accountJSON "u" "p" "1" "x") ++ "!")
        = ⟨"u", "p", "1", "x"⟩
    ∧ checkValid (Base64.Decode "eyJ1c2VybmFtZSI6ImEifQ==!") = true :=
  ⟨decode_malformed_amended.1 "QUJD" "!" [65, 66, 67] (by decide) rfl,
    decode_malformed_amended.1 "" "!QUJD" [] (by decide) rfl,
    decode_malformed_amended.2.1 "u" "p" "1" "x" "!" rfl,
    (decode_malformed_amended.2.2 "eyJ1c2VybmFtZSI6ImEifQ==!" (by decide)).1⟩

end T00ls
